import Mathlib

/-!
Shallow embedding of the MoonTVPlus watch-room coordination server.

The server keeps four JavaScript `Map`s (`rooms`, `members`, `socketToRoom`,
`roomDeletionTimers`) and reacts to socket events.  The repository contains two
variants of the server class:

* `server.js` (source file `src/unnamed/part_005`): the Next.js custom server
  with owner-token reclaim, owner-leave disbandment and a 30-second
  empty-room grace timer.  This is the primary model below
  (`handleRoomCreate`, `handleRoomJoin`, `handleLeaveRoom`, ...).
* `src/lib/watch-room-server.ts`: the shared TypeScript variant, whose
  `play:update` handler additionally requires the sender to be the owner.
  Only that diverging handler is modelled (`tsPlayUpdate`).

JavaScript `Map`s are modelled as insertion-ordered association lists with
string keys; `Map.set` replaces in place or appends, `Map.delete` removes the
entry, `Map.size` is the list length (keys are never duplicated).  `Date.now()`
values and the randomly generated identifiers (`generateRoomId`,
`generateMessageId`) are parameters of the events that consume them.  The
socket.io adapter (which sockets are in which broadcast room, maintained by
`socket.join` / `socket.leave`) is carried in the state as `sioRooms`, so each
emitted message records the concrete list of receiving sockets.
-/

namespace WatchRoom

/-- JS `Map.get`: first entry with the key, if any. -/
def jsGet {α : Type} : List (String × α) → String → Option α
  | [], _ => none
  | (k1, v) :: rest, k => if k1 = k then some v else jsGet rest k

/-- JS `Map.set`: replace the entry in place, or append a new one. -/
def jsSet {α : Type} : List (String × α) → String → α → List (String × α)
  | [], k, v => [(k, v)]
  | (k1, v1) :: rest, k, v =>
    if k1 = k then (k, v) :: rest else (k1, v1) :: jsSet rest k v

/-- JS `Map.delete`: remove the entry with the key. -/
def jsDelete {α : Type} : List (String × α) → String → List (String × α)
  | [], _ => []
  | (k1, v1) :: rest, k => if k1 = k then rest else (k1, v1) :: jsDelete rest k

/-- Insert into a set-like list if not already present (arming a timer key). -/
def listInsert (l : List String) (a : String) : List String :=
  if a ∈ l then l else l ++ [a]

/-- JS string truthiness of an optional string (`undefined` and `""` are falsy). -/
def strTruthy : Option String → Bool
  | none => false
  | some x => x != ""

/-- The password rejection test of `room:join`:
`room.password && room.password !== data.password`. -/
def passwordRejects0 (roomPassword dataPassword : Option String) : Bool :=
  strTruthy roomPassword && (roomPassword != dataPassword)

/-- The ownership-reclaim test of `room:join`:
`data.ownerToken && data.ownerToken === room.ownerToken`. -/
def reclaims0 (dataOwnerToken : Option String) (roomOwnerToken : String) : Bool :=
  strTruthy dataOwnerToken && (dataOwnerToken == some roomOwnerToken)

/-- Chat message kind: `'text' | 'emoji'`. -/
inductive MsgType
  | text
  | emoji
deriving DecidableEq

/-- `PlayState` from `src/types/watch-room.ts`. -/
structure PlayState where
  url : String
  currentTime : Nat
  isPlaying : Bool
  videoId : String
  videoName : String
  videoYear : Option String
  searchTitle : Option String
  episode : Option Nat
  source : String
deriving DecidableEq

/-- `LiveState` from `src/types/watch-room.ts`. -/
structure LiveState where
  channelId : String
  channelName : String
  channelUrl : String
deriving DecidableEq

/-- The tagged union `PlayState | LiveState` stored in `room.currentState`. -/
inductive CurrentState
  | play (s : PlayState)
  | live (s : LiveState)
deriving DecidableEq

/-- `Member` record. -/
structure Member where
  id : String
  name : String
  isOwner : Bool
  lastHeartbeat : Nat
deriving DecidableEq

/-- `Room` record (note that `ownerToken` is a plain field of the record that
is serialised whenever the whole room object is sent). -/
structure Room where
  id : String
  name : String
  description : String
  password : Option String
  isPublic : Bool
  ownerId : String
  ownerName : String
  ownerToken : String
  memberCount : Nat
  currentState : Option CurrentState
  createdAt : Nat
  lastOwnerHeartbeat : Nat
deriving DecidableEq

/-- `RoomMemberInfo`: the per-connection binding stored in `socketToRoom`. -/
structure RoomMemberInfo where
  roomId : String
  userId : String
  userName : String
  isOwner : Bool
deriving DecidableEq

/-- `ChatMessage` constructed by the `chat:message` handler. -/
structure ChatMessage where
  id : String
  userId : String
  userName : String
  content : String
  type : MsgType
  timestamp : Nat
deriving DecidableEq

/-- Payload of the `room:create` request. -/
structure CreateData where
  name : String
  description : String
  password : Option String
  isPublic : Bool
  userName : String
deriving DecidableEq

/-- Payload of the `room:join` request. -/
structure JoinData where
  roomId : String
  password : Option String
  userName : String
  ownerToken : Option String
deriving DecidableEq

/-- Every outbound payload the server emits (callback replies and events). -/
inductive Payload
  | createReply (success : Bool) (room : Option Room) (error : Option String)
  | joinReply (success : Bool) (room : Option Room) (members : Option (List Member))
      (error : Option String)
  | listReply (rooms : List Room)
  | memberJoined (member : Member)
  | memberLeft (userId : String)
  | roomDeleted (reason : Option String)
  | playUpdate (state : PlayState)
  | playSeek (currentTime : Nat)
  | playPlay
  | playPause
  | playChange (state : PlayState)
  | liveChange (state : LiveState)
  | chatMessage (message : ChatMessage)
  | voiceOffer (userId : String) (offer : String)
  | voiceAnswer (userId : String) (answer : String)
  | voiceIce (userId : String) (candidate : String)
deriving DecidableEq

/-- One emitted message: the sockets that receive it and the payload.  The
recipient list is resolved against the socket.io adapter at emit time. -/
structure OutMsg where
  recipients : List String
  payload : Payload
deriving DecidableEq

/-- The whole mutable state of the `WatchRoomServer` class in `server.js`,
together with the socket.io adapter rooms. -/
structure ServerState where
  rooms : List (String × Room)
  members : List (String × List (String × Member))
  socketToRoom : List (String × RoomMemberInfo)
  roomDeletionTimers : List String
  sioRooms : List (String × List String)
deriving DecidableEq

/-- The sockets currently in a socket.io broadcast room. -/
def sioGet (sio : List (String × List String)) (roomId : String) : List String :=
  (jsGet sio roomId).getD []

/-- `socket.join(roomId)`. -/
def sioJoin (sio : List (String × List String)) (roomId sock : String) :
    List (String × List String) :=
  let cur := sioGet sio roomId
  jsSet sio roomId (if sock ∈ cur then cur else cur ++ [sock])

/-- `socket.leave(roomId)`. -/
def sioLeave (sio : List (String × List String)) (roomId sock : String) :
    List (String × List String) :=
  match jsGet sio roomId with
  | none => sio
  | some cur => jsSet sio roomId (cur.filter (fun x => x ≠ sock))

/-- Recipients of `socket.to(roomId).emit(...)`: the broadcast room minus the
sending socket. -/
def roomRecipientsExcept (sio : List (String × List String)) (roomId sender : String) :
    List String :=
  (sioGet sio roomId).filter (fun x => x ≠ sender)

/-- The inbound events, with `Date.now()` readings and generated random
identifiers as explicit parameters.  `timerFire` is the 30-second empty-room
deletion callback, `cleanupSweep` one tick of the owner-timeout interval. -/
inductive Event
  | roomCreate (sock : String) (data : CreateData) (newRoomId newOwnerToken : String) (now : Nat)
  | roomJoin (sock : String) (data : JoinData) (now : Nat)
  | roomLeave (sock : String)
  | roomList (sock : String)
  | playUpdate (sock : String) (state : PlayState)
  | playSeek (sock : String) (currentTime : Nat)
  | playPlay (sock : String)
  | playPause (sock : String)
  | playChange (sock : String) (state : PlayState)
  | liveChange (sock : String) (state : LiveState)
  | chatMessage (sock : String) (content : String) (kind : MsgType) (newMsgId : String) (now : Nat)
  | voiceOffer (sock : String) (targetUserId : String) (offer : String)
  | voiceAnswer (sock : String) (targetUserId : String) (answer : String)
  | voiceIce (sock : String) (targetUserId : String) (candidate : String)
  | heartbeat (sock : String) (now : Nat)
  | disconnect (sock : String)
  | timerFire (roomId : String)
  | cleanupSweep (now : Nat)
deriving DecidableEq

/-- The `room:create` handler. -/
def handleRoomCreate (s : ServerState) (sock : String) (data : CreateData)
    (newRoomId newOwnerToken : String) (now : Nat) : ServerState × List OutMsg :=
  let room : Room :=
    { id := newRoomId, name := data.name, description := data.description,
      password := data.password, isPublic := data.isPublic, ownerId := sock,
      ownerName := data.userName, ownerToken := newOwnerToken, memberCount := 1,
      currentState := none, createdAt := now, lastOwnerHeartbeat := now }
  let member : Member := { id := sock, name := data.userName, isOwner := true, lastHeartbeat := now }
  ({ rooms := jsSet s.rooms newRoomId room,
     members := jsSet s.members newRoomId [(sock, member)],
     socketToRoom := jsSet s.socketToRoom sock
       { roomId := newRoomId, userId := sock, userName := data.userName, isOwner := true },
     roomDeletionTimers := s.roomDeletionTimers,
     sioRooms := sioJoin s.sioRooms newRoomId sock },
   [⟨[sock], .createReply true (some room) none⟩])

/-- The `room:join` handler, including the `ownerToken` reclaim branch and the
cancellation of a pending deletion timer. -/
def handleRoomJoin (s : ServerState) (sock : String) (data : JoinData) (now : Nat) :
    ServerState × List OutMsg :=
  match jsGet s.rooms data.roomId with
  | none => (s, [⟨[sock], .joinReply false none none (some "房间不存在")⟩])
  | some room0 =>
    if passwordRejects0 room0.password data.password then
      (s, [⟨[sock], .joinReply false none none (some "密码错误")⟩])
    else
      let userId := sock
      let isOwner := reclaims0 data.ownerToken room0.ownerToken
      let room1 :=
        if isOwner then { room0 with ownerId := userId, lastOwnerHeartbeat := now } else room0
      let rooms1 := if isOwner then jsSet s.rooms data.roomId room1 else s.rooms
      let timers1 := s.roomDeletionTimers.erase data.roomId
      let member : Member :=
        { id := userId, name := data.userName, isOwner := isOwner, lastHeartbeat := now }
      match jsGet s.members data.roomId with
      | some roomMembers =>
        let roomMembers1 := jsSet roomMembers userId member
        let room2 := { room1 with memberCount := roomMembers1.length }
        let sio1 := sioJoin s.sioRooms data.roomId sock
        ({ rooms := jsSet rooms1 data.roomId room2,
           members := jsSet s.members data.roomId roomMembers1,
           socketToRoom := jsSet s.socketToRoom sock
             { roomId := data.roomId, userId := userId, userName := data.userName,
               isOwner := isOwner },
           roomDeletionTimers := timers1,
           sioRooms := sio1 },
         [⟨roomRecipientsExcept sio1 data.roomId sock, .memberJoined member⟩,
          ⟨[sock], .joinReply true (some room2) (some (roomMembers1.map (fun p => p.2))) none⟩])
      | none =>
        let sio1 := sioJoin s.sioRooms data.roomId sock
        ({ s with rooms := rooms1,
                  socketToRoom := jsSet s.socketToRoom sock
                    { roomId := data.roomId, userId := userId, userName := data.userName,
                      isOwner := isOwner },
                  roomDeletionTimers := timers1,
                  sioRooms := sio1 },
         [⟨roomRecipientsExcept sio1 data.roomId sock, .memberJoined member⟩,
          ⟨[sock], .joinReply true (some room1) (some []) none⟩])

/-- `deleteRoom(roomId, skipNotify)`: optionally broadcast `room:deleted`
(without a reason) to the socket.io room, then drop the room and its member
map.  Neither the timer map nor the adapter is touched. -/
def deleteRoomState (s : ServerState) (roomId : String) (skipNotify : Bool) :
    ServerState × List OutMsg :=
  ({ s with rooms := jsDelete s.rooms roomId, members := jsDelete s.members roomId },
   if skipNotify then [] else [⟨sioGet s.sioRooms roomId, .roomDeleted none⟩])

/-- `handleLeaveRoom`, shared by `room:leave` and `disconnect`: remove the
member, recompute `memberCount`, notify `room:member-left`; if the departing
member is the owner, broadcast `room:deleted` with reason `owner_left`, evict
every remaining member's binding, delete the room (skipping the generic
notice) and cancel any pending timer; otherwise arm the 30-second deletion
timer when the room became empty. -/
def handleLeaveRoom (s : ServerState) (sock : String) : ServerState × List OutMsg :=
  match jsGet s.socketToRoom sock with
  | none => (s, [])
  | some info =>
    let roomId := info.roomId
    let userId := info.userId
    let room? := jsGet s.rooms roomId
    match jsGet s.members roomId with
    | none =>
      ({ s with sioRooms := sioLeave s.sioRooms roomId sock,
                socketToRoom := jsDelete s.socketToRoom sock }, [])
    | some roomMembers =>
      let roomMembers1 := jsDelete roomMembers userId
      let rooms1 :=
        match room? with
        | some room => jsSet s.rooms roomId { room with memberCount := roomMembers1.length }
        | none => s.rooms
      let msgLeft : OutMsg := ⟨roomRecipientsExcept s.sioRooms roomId sock, .memberLeft userId⟩
      if info.isOwner then
        let msgDeleted : OutMsg :=
          ⟨roomRecipientsExcept s.sioRooms roomId sock, .roomDeleted (some "owner_left")⟩
        let stbl1 := (roomMembers1.map (fun p => p.1)).foldl jsDelete s.socketToRoom
        let sAfter : ServerState :=
          { s with rooms := rooms1, members := jsSet s.members roomId roomMembers1,
                   socketToRoom := stbl1 }
        let sDel := (deleteRoomState sAfter roomId true).1
        ({ sDel with roomDeletionTimers := sDel.roomDeletionTimers.erase roomId,
                     sioRooms := sioLeave sDel.sioRooms roomId sock,
                     socketToRoom := jsDelete sDel.socketToRoom sock },
         [msgLeft, msgDeleted])
      else
        let timers1 :=
          if roomMembers1.length = 0 then listInsert s.roomDeletionTimers roomId
          else s.roomDeletionTimers
        ({ s with rooms := rooms1, members := jsSet s.members roomId roomMembers1,
                  roomDeletionTimers := timers1,
                  sioRooms := sioLeave s.sioRooms roomId sock,
                  socketToRoom := jsDelete s.socketToRoom sock },
         [msgLeft])

/-- Body of the 30-second deletion timer callback: re-check that the room is
still empty, then delete it with the generic broadcast. -/
def handleTimerFire (s : ServerState) (roomId : String) : ServerState × List OutMsg :=
  match jsGet s.members roomId with
  | some currentRoomMembers =>
    if currentRoomMembers.length = 0 then
      let p := deleteRoomState s roomId false
      ({ p.1 with roomDeletionTimers := p.1.roomDeletionTimers.erase roomId }, p.2)
    else (s, [])
  | none => (s, [])

/-- One deletion check of the cleanup sweep, applied to a snapshot entry. -/
def sweepOne (now : Nat) (acc : ServerState × List OutMsg) (entry : String × Room) :
    ServerState × List OutMsg :=
  if 300000 < now - entry.2.lastOwnerHeartbeat then
    let p := deleteRoomState acc.1 entry.1 false
    (p.1, acc.2 ++ p.2)
  else acc

/-- One tick of the 30-second cleanup interval: delete every room whose
`lastOwnerHeartbeat` is more than five minutes old. -/
def handleCleanupSweep (s : ServerState) (now : Nat) : ServerState × List OutMsg :=
  s.rooms.foldl (sweepOne now) (s, [])

/-- `play:update` in `server.js`: any socket bound to an existing room stores
the state and relays it to the other members. -/
def handlePlayUpdate (s : ServerState) (sock : String) (state : PlayState) :
    ServerState × List OutMsg :=
  match jsGet s.socketToRoom sock with
  | none => (s, [])
  | some roomInfo =>
    match jsGet s.rooms roomInfo.roomId with
    | some room =>
      let room1 := { room with currentState := some (.play state) }
      ({ s with rooms := jsSet s.rooms roomInfo.roomId room1 },
       [⟨roomRecipientsExcept s.sioRooms roomInfo.roomId sock, .playUpdate state⟩])
    | none => (s, [])

/-- `play:seek`: pure relay guarded only by the connection binding. -/
def handlePlaySeek (s : ServerState) (sock : String) (currentTime : Nat) :
    ServerState × List OutMsg :=
  match jsGet s.socketToRoom sock with
  | none => (s, [])
  | some roomInfo =>
    (s, [⟨roomRecipientsExcept s.sioRooms roomInfo.roomId sock, .playSeek currentTime⟩])

/-- `play:play`: pure relay guarded only by the connection binding. -/
def handlePlayPlay (s : ServerState) (sock : String) : ServerState × List OutMsg :=
  match jsGet s.socketToRoom sock with
  | none => (s, [])
  | some roomInfo =>
    (s, [⟨roomRecipientsExcept s.sioRooms roomInfo.roomId sock, .playPlay⟩])

/-- `play:pause`: pure relay guarded only by the connection binding. -/
def handlePlayPause (s : ServerState) (sock : String) : ServerState × List OutMsg :=
  match jsGet s.socketToRoom sock with
  | none => (s, [])
  | some roomInfo =>
    (s, [⟨roomRecipientsExcept s.sioRooms roomInfo.roomId sock, .playPause⟩])

/-- `play:change`: owner-only state update and relay. -/
def handlePlayChange (s : ServerState) (sock : String) (state : PlayState) :
    ServerState × List OutMsg :=
  match jsGet s.socketToRoom sock with
  | none => (s, [])
  | some roomInfo =>
    if !roomInfo.isOwner then (s, [])
    else
      match jsGet s.rooms roomInfo.roomId with
      | some room =>
        let room1 := { room with currentState := some (.play state) }
        ({ s with rooms := jsSet s.rooms roomInfo.roomId room1 },
         [⟨roomRecipientsExcept s.sioRooms roomInfo.roomId sock, .playChange state⟩])
      | none => (s, [])

/-- `live:change`: owner-only state update and relay. -/
def handleLiveChange (s : ServerState) (sock : String) (state : LiveState) :
    ServerState × List OutMsg :=
  match jsGet s.socketToRoom sock with
  | none => (s, [])
  | some roomInfo =>
    if !roomInfo.isOwner then (s, [])
    else
      match jsGet s.rooms roomInfo.roomId with
      | some room =>
        let room1 := { room with currentState := some (.live state) }
        ({ s with rooms := jsSet s.rooms roomInfo.roomId room1 },
         [⟨roomRecipientsExcept s.sioRooms roomInfo.roomId sock, .liveChange state⟩])
      | none => (s, [])

/-- `chat:message`: build the message from the binding and broadcast it with
`io.to(roomId)` (sender included); the rooms map is never consulted. -/
def handleChatMessage (s : ServerState) (sock : String) (content : String) (kind : MsgType)
    (newMsgId : String) (now : Nat) : ServerState × List OutMsg :=
  match jsGet s.socketToRoom sock with
  | none => (s, [])
  | some roomInfo =>
    let message : ChatMessage :=
      { id := newMsgId, userId := roomInfo.userId, userName := roomInfo.userName,
        content := content, type := kind, timestamp := now }
    (s, [⟨sioGet s.sioRooms roomInfo.roomId, .chatMessage message⟩])

/-- `voice:offer` relay to the single target socket. -/
def handleVoiceOffer (s : ServerState) (sock targetUserId offer : String) :
    ServerState × List OutMsg :=
  match jsGet s.socketToRoom sock with
  | none => (s, [])
  | some _ => (s, [⟨[targetUserId], .voiceOffer sock offer⟩])

/-- `voice:answer` relay to the single target socket. -/
def handleVoiceAnswer (s : ServerState) (sock targetUserId answer : String) :
    ServerState × List OutMsg :=
  match jsGet s.socketToRoom sock with
  | none => (s, [])
  | some _ => (s, [⟨[targetUserId], .voiceAnswer sock answer⟩])

/-- `voice:ice` relay to the single target socket. -/
def handleVoiceIce (s : ServerState) (sock targetUserId candidate : String) :
    ServerState × List OutMsg :=
  match jsGet s.socketToRoom sock with
  | none => (s, [])
  | some _ => (s, [⟨[targetUserId], .voiceIce sock candidate⟩])

/-- `heartbeat`: refresh the member's heartbeat and, for the owner, the room's
`lastOwnerHeartbeat`. -/
def handleHeartbeat (s : ServerState) (sock : String) (now : Nat) :
    ServerState × List OutMsg :=
  match jsGet s.socketToRoom sock with
  | none => (s, [])
  | some roomInfo =>
    let members1 :=
      match jsGet s.members roomInfo.roomId with
      | some roomMembers =>
        match jsGet roomMembers roomInfo.userId with
        | some member =>
          jsSet s.members roomInfo.roomId
            (jsSet roomMembers roomInfo.userId { member with lastHeartbeat := now })
        | none => s.members
      | none => s.members
    let rooms1 :=
      if roomInfo.isOwner then
        match jsGet s.rooms roomInfo.roomId with
        | some room => jsSet s.rooms roomInfo.roomId { room with lastOwnerHeartbeat := now }
        | none => s.rooms
      else s.rooms
    ({ s with members := members1, rooms := rooms1 }, [])

/-- `room:list`: reply with every public room record, unredacted. -/
def handleRoomList (s : ServerState) (sock : String) : ServerState × List OutMsg :=
  (s, [⟨[sock], .listReply ((s.rooms.map (fun p => p.2)).filter (fun r => r.isPublic))⟩])

/-- `disconnect`: run `handleLeaveRoom`, then the transport removes the socket
from every socket.io room. -/
def handleDisconnect (s : ServerState) (sock : String) : ServerState × List OutMsg :=
  let p := handleLeaveRoom s sock
  ({ p.1 with sioRooms := p.1.sioRooms.map (fun q => (q.1, q.2.filter (fun x => x ≠ sock))) },
   p.2)

/-- The event dispatcher of the `server.js` variant. -/
def stepFn (s : ServerState) : Event → ServerState × List OutMsg
  | .roomCreate sock data newRoomId newOwnerToken now =>
    handleRoomCreate s sock data newRoomId newOwnerToken now
  | .roomJoin sock data now => handleRoomJoin s sock data now
  | .roomLeave sock => handleLeaveRoom s sock
  | .roomList sock => handleRoomList s sock
  | .playUpdate sock state => handlePlayUpdate s sock state
  | .playSeek sock currentTime => handlePlaySeek s sock currentTime
  | .playPlay sock => handlePlayPlay s sock
  | .playPause sock => handlePlayPause s sock
  | .playChange sock state => handlePlayChange s sock state
  | .liveChange sock state => handleLiveChange s sock state
  | .chatMessage sock content kind newMsgId now =>
    handleChatMessage s sock content kind newMsgId now
  | .voiceOffer sock targetUserId offer => handleVoiceOffer s sock targetUserId offer
  | .voiceAnswer sock targetUserId answer => handleVoiceAnswer s sock targetUserId answer
  | .voiceIce sock targetUserId candidate => handleVoiceIce s sock targetUserId candidate
  | .heartbeat sock now => handleHeartbeat s sock now
  | .disconnect sock => handleDisconnect s sock
  | .timerFire roomId => handleTimerFire s roomId
  | .cleanupSweep now => handleCleanupSweep s now

/-- The empty initial state of a fresh `WatchRoomServer`. -/
def initState : ServerState :=
  { rooms := [], members := [], socketToRoom := [], roomDeletionTimers := [], sioRooms := [] }

/-- Run a trace of events from the initial state. -/
def run (trace : List Event) : ServerState :=
  trace.foldl (fun s e => (stepFn s e).1) initState

/-- The states reachable from a fresh server by any event sequence. -/
inductive Reachable : ServerState → Prop
  | init : Reachable initState
  | step (s : ServerState) (e : Event) : Reachable s → Reachable (stepFn s e).1

/-- `play:update` of the `src/lib/watch-room-server.ts` variant: identical to
`handlePlayUpdate` except that a sender whose binding has `isOwner = false` is
rejected. -/
def tsPlayUpdate (socketToRoom : List (String × RoomMemberInfo))
    (rooms : List (String × Room)) (sio : List (String × List String))
    (sock : String) (state : PlayState) : List (String × Room) × List OutMsg :=
  match jsGet socketToRoom sock with
  | none => (rooms, [])
  | some roomInfo =>
    if !roomInfo.isOwner then (rooms, [])
    else
      match jsGet rooms roomInfo.roomId with
      | some room =>
        let room1 := { room with currentState := some (.play state) }
        (jsSet rooms roomInfo.roomId room1,
         [⟨roomRecipientsExcept sio roomInfo.roomId sock, .playUpdate state⟩])
      | none => (rooms, [])

/-- Number of owner-flagged entries in a member map. -/
def ownersCount (ms : List (String × Member)) : Nat :=
  ms.countP (fun p => p.2.isOwner)

/-- The keys of an association list are pairwise distinct. -/
def keysNodup {α : Type} (m : List (String × α)) : Prop :=
  (m.map Prod.fst).Nodup

instance keysNodupDec {α : Type} (m : List (String × α)) : Decidable (keysNodup m) :=
  List.nodupDecidable _

/-- The `Room` records contained in an outbound payload (only the three
request replies ever serialise a room object). -/
def payloadRooms : Payload → List Room
  | .createReply _ room _ => room.toList
  | .joinReply _ room _ _ => room.toList
  | .listReply rooms => rooms
  | _ => []

/-- Does an outbound message carry a room record whose `ownerToken` is `tok`? -/
def msgLeaksToken (m : OutMsg) (tok : String) : Bool :=
  (payloadRooms m.payload).any (fun r => r.ownerToken == tok)

/-- Is the payload a `room:deleted` notice (any reason)? -/
def isRoomDeletedMsg : Payload → Bool
  | .roomDeleted _ => true
  | _ => false

/-- Is the payload a `room:deleted` notice with reason `owner_left`? -/
def isOwnerLeftMsg : Payload → Bool
  | .roomDeleted (some r) => r == "owner_left"
  | _ => false

/-- How many of the emitted messages satisfying the payload predicate are
delivered to socket `k`. -/
def recvCount (msgs : List OutMsg) (k : String) (f : Payload → Bool) : Nat :=
  msgs.countP (fun m => f m.payload && m.recipients.contains k)

/-- Trace side condition for the amended single-owner invariant: a reclaim
join may only happen when every owner-flagged member record of the target
room already belongs to the joining socket. -/
def okEvent (s : ServerState) : Event → Prop
  | .roomJoin sock data _ =>
    ∀ room, jsGet s.rooms data.roomId = some room →
      reclaims0 data.ownerToken room.ownerToken = true →
      ∀ ms, jsGet s.members data.roomId = some ms →
        ∀ p ∈ ms, p.2.isOwner = true → p.1 = sock
  | _ => True

/-- States reachable by traces whose reclaim joins always happen after the
previous owner's member record is gone. -/
inductive ReachableOk : ServerState → Prop
  | init : ReachableOk initState
  | step (s : ServerState) (e : Event) : ReachableOk s → okEvent s e →
      ReachableOk (stepFn s e).1

/-- A room id is dead in a state: absent from the registry and the member
map, no timer armed and no connection binding naming it. -/
def roomGone (s : ServerState) (rid : String) : Prop :=
  jsGet s.rooms rid = none ∧ jsGet s.members rid = none ∧
  rid ∉ s.roomDeletionTimers ∧ ∀ p ∈ s.socketToRoom, (p.2 : RoomMemberInfo).roomId ≠ rid

/-- Does the event create a room under exactly this id? -/
def introducesId : Event → String → Prop
  | .roomCreate _ _ newRoomId _ _, rid => newRoomId = rid
  | _, _ => False

/-- The registry/member-map consistency invariant: both maps have distinct
keys and the same domain, and `memberCount` equals the member-map size. -/
def registryInv (s : ServerState) : Prop :=
  keysNodup s.rooms ∧ keysNodup s.members ∧
  (∀ rid, (jsGet s.rooms rid).isSome ↔ (jsGet s.members rid).isSome) ∧
  (∀ rid room ms, jsGet s.rooms rid = some room → jsGet s.members rid = some ms →
    room.memberCount = ms.length)

/-- Is the payload a successful join reply? -/
def isJoinSuccess : Payload → Bool
  | .joinReply true _ _ _ => true
  | _ => false

/-- All member lists carried in join replies of a message batch. -/
def replyMembers (msgs : List OutMsg) : List Member :=
  msgs.foldr (fun m acc =>
    (match m.payload with
     | .joinReply _ _ (some l) _ => l
     | _ => []) ++ acc) []

/-- The (amended) single-owner invariant: every member map stored in the
registry has distinct keys and at most one owner-flagged entry. -/
def ownersInv (s : ServerState) : Prop :=
  ∀ p ∈ s.members, keysNodup (p : String × List (String × Member)).2 ∧
    ownersCount p.2 ≤ 1

/-- Sample `room:create` request payload. -/
def sampleCreate (userName : String) : CreateData :=
  { name := "movie night", description := "demo", password := none, isPublic := true,
    userName := userName }

/-- Sample `room:create` request payload with a chosen password. -/
def sampleCreatePw (pw : Option String) (userName : String) : CreateData :=
  { name := "movie night", description := "demo", password := pw, isPublic := true,
    userName := userName }

/-- The room record produced by creating `R1` with token `TOK` at time 0. -/
def demoRoom (pw : Option String) : Room :=
  { id := "R1", name := "movie night", description := "demo", password := pw,
    isPublic := true, ownerId := "A", ownerName := "Alice", ownerToken := "TOK",
    memberCount := 1, currentState := none, createdAt := 0, lastOwnerHeartbeat := 0 }

/-- The owner member record of the demo room. -/
def demoOwner : Member := { id := "A", name := "Alice", isOwner := true, lastHeartbeat := 0 }

/-- Sample playback state. -/
def samplePlay : PlayState :=
  { url := "http://example.invalid/v.m3u8", currentTime := 42, isPlaying := true,
    videoId := "vid1", videoName := "some film", videoYear := none, searchTitle := none,
    episode := none, source := "srcA" }

/-- Hand-built state: room `R1` exists with an armed deletion timer, an empty
member map and no connection bound (the original owner connection is gone). -/
def c4state : ServerState :=
  { rooms := [("R1", demoRoom none)], members := [("R1", [])], socketToRoom := [],
    roomDeletionTimers := ["R1"], sioRooms := [("R1", [])] }

/-- The plain member record of Bob. -/
def bobMember : Member :=
  { id := "B", name := "Bob", isOwner := false, lastHeartbeat := 0 }

/-- Hand-built state: room `R1` whose only member is the non-owner Bob. -/
def c5state : ServerState :=
  { rooms := [("R1", demoRoom none)],
    members := [("R1", [("B", bobMember)])],
    socketToRoom := [("B", ⟨"R1", "B", "Bob", false⟩)],
    roomDeletionTimers := [], sioRooms := [("R1", ["B"])] }

/-- Trace: Alice creates public room `R1` (token `TOK`). -/
def traceCreate : List Event :=
  [.roomCreate "A" (sampleCreate "Alice") "R1" "TOK" 0]

/-- Trace: Alice creates `R1`, Bob joins as a plain member. -/
def traceAB : List Event :=
  traceCreate ++ [.roomJoin "B" ⟨"R1", none, "Bob", none⟩ 0]

/-- Trace: Alice creates `R1`, then a second connection joins presenting the
room's own `ownerToken` while Alice's member record is still present. -/
def traceReclaim : List Event :=
  traceCreate ++ [.roomJoin "B" ⟨"R1", none, "Bob", some "TOK"⟩ 5]

/-- Trace: Alice creates `R1`, Bob and Cara join as plain members. -/
def traceABC : List Event :=
  traceAB ++ [.roomJoin "C" ⟨"R1", none, "Cara", none⟩ 0]

/-- Trace: room created with the empty string as password. -/
def traceEmptyPw : List Event :=
  [.roomCreate "A" (sampleCreatePw (some "") "Alice") "R1" "TOK" 0]

/-- Trace: room created with password `secret`. -/
def tracePwSecret : List Event :=
  [.roomCreate "A" (sampleCreatePw (some "secret") "Alice") "R1" "TOK" 0]

/-- Trace: Alice creates `R1`, Bob joins, then the five-minute owner-timeout
sweep fires and deletes the room while both connections stay bound. -/
def traceSwept : List Event :=
  traceAB ++ [.cleanupSweep 300001]

/-- The room record Oscar creates as `R2` at time 1 (token `TOK2`). -/
def oscarRoom : Room :=
  { id := "R2", name := "movie night", description := "demo", password := none,
    isPublic := true, ownerId := "O", ownerName := "Oscar", ownerToken := "TOK2",
    memberCount := 1, currentState := none, createdAt := 1, lastOwnerHeartbeat := 1 }

/-- Oscar's owner member record. -/
def oscarOwner : Member := { id := "O", name := "Oscar", isOwner := true, lastHeartbeat := 1 }

/-- Trace: Alice creates `R1`, Bob joins it, Oscar creates `R2`. -/
def traceTwoRooms : List Event :=
  traceAB ++ [.roomCreate "O" (sampleCreate "Oscar") "R2" "TOK2" 1]

theorem jsGet_jsSet {α : Type} (m : List (String × α)) (k k' : String) (v : α) :
    jsGet (jsSet m k v) k' = if k = k' then some v else jsGet m k' := by
  induction m with
  | nil =>
    by_cases h : k = k' <;> simp [jsSet, jsGet, h]
  | cons p rest ih =>
    obtain ⟨k1, v1⟩ := p
    by_cases h1 : k1 = k
    · have hset : jsSet ((k1, v1) :: rest) k v = (k, v) :: rest := by simp [jsSet, h1]
      rw [hset]
      by_cases h2 : k = k' <;> simp [jsGet, h1, h2]
    · simp only [jsSet, if_neg h1]
      by_cases h2 : k1 = k'
      · have h3 : ¬k = k' := fun he => h1 (by rw [h2, he])
        simp [jsGet, h2, h3]
      · simp [jsGet, h2, ih]

theorem jsGet_eq_none_iff {α : Type} (m : List (String × α)) (k : String) :
    jsGet m k = none ↔ ∀ p ∈ m, p.1 ≠ k := by
  induction m with
  | nil => simp [jsGet]
  | cons p rest ih =>
    obtain ⟨k1, v1⟩ := p
    by_cases h : k1 = k <;> simp [jsGet, h, ih]

theorem jsGet_mem {α : Type} {m : List (String × α)} {k : String} {v : α}
    (h : jsGet m k = some v) : (k, v) ∈ m := by
  induction m with
  | nil => simp [jsGet] at h
  | cons p rest ih =>
    obtain ⟨k1, v1⟩ := p
    by_cases h1 : k1 = k
    · subst h1
      simp [jsGet] at h
      simp [h]
    · simp [jsGet, h1] at h
      exact List.mem_cons_of_mem _ (ih h)

theorem mem_jsSet {α : Type} {m : List (String × α)} {k : String} {v : α} {p : String × α}
    (h : p ∈ jsSet m k v) : p = (k, v) ∨ p ∈ m := by
  induction m with
  | nil => simpa [jsSet] using h
  | cons q rest ih =>
    obtain ⟨k1, v1⟩ := q
    by_cases h1 : k1 = k
    · subst h1
      simp [jsSet] at h
      rcases h with h | h
      · exact Or.inl h
      · exact Or.inr (List.mem_cons_of_mem _ h)
    · simp [jsSet, h1] at h
      rcases h with h | h
      · exact Or.inr (by simp [h])
      · rcases ih h with h2 | h2
        · exact Or.inl h2
        · exact Or.inr (List.mem_cons_of_mem _ h2)

theorem mem_jsDelete {α : Type} {m : List (String × α)} {k : String} {p : String × α}
    (h : p ∈ jsDelete m k) : p ∈ m := by
  induction m with
  | nil => simpa [jsDelete] using h
  | cons q rest ih =>
    obtain ⟨k1, v1⟩ := q
    by_cases h1 : k1 = k
    · subst h1
      simp [jsDelete] at h
      exact List.mem_cons_of_mem _ h
    · simp [jsDelete, h1] at h
      rcases h with h | h
      · simp [h]
      · exact List.mem_cons_of_mem _ (ih h)

theorem jsGet_jsDelete_ne {α : Type} (m : List (String × α)) {k k' : String} (h : k ≠ k') :
    jsGet (jsDelete m k) k' = jsGet m k' := by
  induction m with
  | nil => simp [jsDelete]
  | cons q rest ih =>
    obtain ⟨k1, v1⟩ := q
    by_cases h1 : k1 = k
    · have h2 : ¬k1 = k' := by rw [h1]; exact h
      simp [jsDelete, h1, jsGet, h2, h]
    · by_cases h2 : k1 = k'
      · have h3 : ¬k' = k := fun he => h he.symm
        simp [jsDelete, h1, h3, jsGet, h2]
      · simp [jsDelete, h1, jsGet, h2, ih]

theorem jsGet_none_jsDelete {α : Type} {m : List (String × α)} {k : String} (k2 : String)
    (h : jsGet m k = none) : jsGet (jsDelete m k2) k = none := by
  rw [jsGet_eq_none_iff] at h ⊢
  exact fun p hp => h p (mem_jsDelete hp)

theorem keysNodup_cons {α : Type} {k1 : String} {v1 : α} {rest : List (String × α)} :
    keysNodup ((k1, v1) :: rest) ↔ (∀ p ∈ rest, (p : String × α).1 ≠ k1) ∧ keysNodup rest := by
  simp only [keysNodup, List.map_cons, List.nodup_cons, List.mem_map]
  constructor
  · rintro ⟨h1, h2⟩
    refine ⟨fun p hp he => h1 ?_, h2⟩
    exact ⟨p, hp, he⟩
  · rintro ⟨h1, h2⟩
    refine ⟨fun hcon => ?_, h2⟩
    obtain ⟨p, hp, he⟩ := hcon
    exact h1 p hp he

theorem keysNodup_jsSet {α : Type} {m : List (String × α)} (k : String) (v : α)
    (h : keysNodup m) : keysNodup (jsSet m k v) := by
  induction m with
  | nil => simp [jsSet, keysNodup]
  | cons q rest ih =>
    obtain ⟨k1, v1⟩ := q
    rw [keysNodup_cons] at h
    by_cases h1 : k1 = k
    · have hset : jsSet ((k1, v1) :: rest) k v = (k, v) :: rest := by simp [jsSet, h1]
      rw [hset, keysNodup_cons]
      exact ⟨fun p hp => h1 ▸ h.1 p hp, h.2⟩
    · simp only [jsSet, if_neg h1]
      rw [keysNodup_cons]
      refine ⟨fun p hp => ?_, ih h.2⟩
      rcases mem_jsSet hp with h2 | h2
      · rw [h2]
        exact fun he => h1 he.symm
      · exact h.1 p h2

theorem keysNodup_jsDelete {α : Type} {m : List (String × α)} (k : String)
    (h : keysNodup m) : keysNodup (jsDelete m k) := by
  induction m with
  | nil => simp [jsDelete, keysNodup]
  | cons q rest ih =>
    obtain ⟨k1, v1⟩ := q
    rw [keysNodup_cons] at h
    by_cases h1 : k1 = k
    · simpa [jsDelete, h1] using h.2
    · simp only [jsDelete, if_neg h1]
      rw [keysNodup_cons]
      exact ⟨fun p hp => h.1 p (mem_jsDelete hp), ih h.2⟩

theorem jsGet_jsDelete_self {α : Type} {m : List (String × α)} (k : String)
    (h : keysNodup m) : jsGet (jsDelete m k) k = none := by
  induction m with
  | nil => simp [jsDelete, jsGet]
  | cons q rest ih =>
    obtain ⟨k1, v1⟩ := q
    rw [keysNodup_cons] at h
    by_cases h1 : k1 = k
    · simp only [jsDelete, if_pos h1]
      rw [jsGet_eq_none_iff]
      exact fun p hp => h1 ▸ h.1 p hp
    · simp only [jsDelete, if_neg h1, jsGet, if_neg h1]
      exact ih h.2

theorem mem_jsDelete_ne {α : Type} {m : List (String × α)} {k : String} {p : String × α}
    (hnd : keysNodup m) (h : p ∈ jsDelete m k) : p.1 ≠ k := by
  induction m with
  | nil => simp [jsDelete] at h
  | cons q rest ih =>
    obtain ⟨k1, v1⟩ := q
    rw [keysNodup_cons] at hnd
    by_cases h1 : k1 = k
    · simp only [jsDelete, if_pos h1] at h
      exact fun he => hnd.1 p h (he.trans h1.symm)
    · simp only [jsDelete, if_neg h1] at h
      rcases List.mem_cons.mp h with h2 | h2
      · rw [h2]
        exact h1
      · exact ih hnd.2 h2

theorem mem_jsSet_of_ne {α : Type} {m : List (String × α)} {k : String} {v : α}
    {p : String × α} (h : p ∈ m) (hne : p.1 ≠ k) : p ∈ jsSet m k v := by
  induction m with
  | nil => simp at h
  | cons q rest ih =>
    obtain ⟨k1, v1⟩ := q
    by_cases h1 : k1 = k
    · have hset : jsSet ((k1, v1) :: rest) k v = (k, v) :: rest := by simp [jsSet, h1]
      rw [hset]
      rcases List.mem_cons.mp h with h2 | h2
      · exact absurd (by rw [h2]; exact h1) hne
      · exact List.mem_cons_of_mem _ h2
    · simp only [jsSet, if_neg h1]
      rcases List.mem_cons.mp h with h2 | h2
      · rw [h2]
        exact List.mem_cons_self _ _
      · exact List.mem_cons_of_mem _ (ih h2)

theorem jsSet_ne_nil {α : Type} (m : List (String × α)) (k : String) (v : α) :
    jsSet m k v ≠ [] := by
  cases m with
  | nil => simp [jsSet]
  | cons q rest =>
    obtain ⟨k1, v1⟩ := q
    by_cases h1 : k1 = k <;> simp [jsSet, h1]

theorem length_jsSet_mem {α : Type} {m : List (String × α)} {k : String} {v0 : α} (v : α)
    (h : jsGet m k = some v0) : (jsSet m k v).length = m.length := by
  induction m with
  | nil => simp [jsGet] at h
  | cons q rest ih =>
    obtain ⟨k1, v1⟩ := q
    by_cases h1 : k1 = k
    · simp [jsSet, h1]
    · simp [jsGet, h1] at h
      simp [jsSet, h1, ih h]

theorem mem_foldl_jsDelete {α : Type} {p : String × α} :
    ∀ (ks : List String) (m : List (String × α)), p ∈ ks.foldl jsDelete m → p ∈ m := by
  intro ks
  induction ks with
  | nil => intro m h; simpa using h
  | cons a rest ih =>
    intro m h
    exact mem_jsDelete (ih (jsDelete m a) (by simpa using h))

theorem keysNodup_foldl_jsDelete {α : Type} :
    ∀ (ks : List String) (m : List (String × α)), keysNodup m →
      keysNodup (ks.foldl jsDelete m) := by
  intro ks
  induction ks with
  | nil => intro m h; simpa using h
  | cons a rest ih => intro m h; exact ih (jsDelete m a) (keysNodup_jsDelete a h)

theorem jsGet_foldl_jsDelete_none {α : Type} {k : String} :
    ∀ (ks : List String) (m : List (String × α)), jsGet m k = none →
      jsGet (ks.foldl jsDelete m) k = none := by
  intro ks
  induction ks with
  | nil => intro m h; simpa using h
  | cons a rest ih => intro m h; exact ih (jsDelete m a) (jsGet_none_jsDelete a h)

theorem jsGet_foldl_jsDelete_of_mem {α : Type} {k : String} :
    ∀ (ks : List String) (m : List (String × α)), keysNodup m → k ∈ ks →
      jsGet (ks.foldl jsDelete m) k = none := by
  intro ks
  induction ks with
  | nil => intro m _ h; simp at h
  | cons a rest ih =>
    intro m hnd hk
    rcases List.mem_cons.mp hk with h | h
    · subst h
      exact jsGet_foldl_jsDelete_none rest (jsDelete m k) (jsGet_jsDelete_self k hnd)
    · exact ih (jsDelete m a) (keysNodup_jsDelete a hnd) h

theorem mem_listInsert {l : List String} {a b : String} :
    a ∈ listInsert l b ↔ a ∈ l ∨ a = b := by
  by_cases h : b ∈ l
  · simp only [listInsert, if_pos h]
    constructor
    · exact Or.inl
    · rintro (h2 | rfl)
      · exact h2
      · exact h
  · simp [listInsert, if_neg h]

theorem ownersCount_jsDelete_le (ms : List (String × Member)) (k : String) :
    ownersCount (jsDelete ms k) ≤ ownersCount ms := by
  induction ms with
  | nil => simp [jsDelete]
  | cons q rest ih =>
    obtain ⟨k1, v1⟩ := q
    by_cases h1 : k1 = k
    · simp only [jsDelete, if_pos h1, ownersCount, List.countP_cons]
      exact Nat.le_add_right _ _
    · simp only [jsDelete, if_neg h1, ownersCount, List.countP_cons]
      exact Nat.add_le_add_right ih _

theorem ownersCount_jsSet_notOwner {v : Member} (ms : List (String × Member)) (k : String)
    (hv : v.isOwner = false) : ownersCount (jsSet ms k v) ≤ ownersCount ms := by
  induction ms with
  | nil => simp [jsSet, ownersCount, List.countP_cons, hv]
  | cons q rest ih =>
    obtain ⟨k1, v1⟩ := q
    by_cases h1 : k1 = k
    · have hset : jsSet ((k1, v1) :: rest) k v = (k, v) :: rest := by simp [jsSet, h1]
      rw [hset]
      by_cases hb : v1.isOwner = true <;>
        simp [ownersCount, List.countP_cons, hv, hb]
    · simp only [jsSet, if_neg h1, ownersCount, List.countP_cons]
      exact Nat.add_le_add_right ih _

theorem ownersCount_jsSet_owner_of {v : Member} (ms : List (String × Member)) (k : String)
    (hnd : keysNodup ms) (hall : ∀ p ∈ ms, (p.2 : Member).isOwner = true → p.1 = k) :
    ownersCount (jsSet ms k v) ≤ 1 := by
  induction ms with
  | nil =>
    simp only [jsSet, ownersCount, List.countP_cons, List.countP_nil, Nat.zero_add]
    split <;> omega
  | cons q rest ih =>
    obtain ⟨k1, v1⟩ := q
    rw [keysNodup_cons] at hnd
    by_cases h1 : k1 = k
    · have hzero : List.countP (fun p => p.2.isOwner) rest = 0 := by
        rw [List.countP_eq_zero]
        intro p hp hown
        exact hnd.1 p hp ((hall p (List.mem_cons_of_mem _ hp) hown).trans h1.symm)
      have hset : jsSet ((k1, v1) :: rest) k v = (k, v) :: rest := by simp [jsSet, h1]
      rw [hset]
      simp only [ownersCount, List.countP_cons, hzero, Nat.zero_add]
      split <;> omega
    · have hv1 : ¬v1.isOwner = true := by
        intro hcon
        exact h1 (hall (k1, v1) (by simp) hcon)
      simp only [jsSet, if_neg h1, ownersCount, List.countP_cons, hv1, if_false,
        Nat.add_zero]
      exact ih hnd.2 (fun p hp hown => hall p (List.mem_cons_of_mem _ hp) hown)

theorem ownersCount_jsSet_same {v m0 : Member} (ms : List (String × Member)) (k : String)
    (h : jsGet ms k = some m0) (hv : v.isOwner = m0.isOwner) :
    ownersCount (jsSet ms k v) = ownersCount ms := by
  induction ms with
  | nil => simp [jsGet] at h
  | cons q rest ih =>
    obtain ⟨k1, v1⟩ := q
    by_cases h1 : k1 = k
    · simp [jsGet, h1] at h
      have hset : jsSet ((k1, v1) :: rest) k v = (k, v) :: rest := by simp [jsSet, h1]
      rw [hset]
      simp [ownersCount, List.countP_cons, hv, h]
    · simp [jsGet, h1] at h
      have h4 := ih h
      simp only [ownersCount] at h4
      simp only [jsSet, if_neg h1, ownersCount, List.countP_cons, h4]

theorem Reachable_foldl (trace : List Event) :
    ∀ s : ServerState, Reachable s → Reachable (trace.foldl (fun s e => (stepFn s e).1) s) := by
  induction trace with
  | nil => intro s h; simpa using h
  | cons e rest ih =>
    intro s h
    exact ih (stepFn s e).1 (Reachable.step s e h)

theorem Reachable_run (trace : List Event) : Reachable (run trace) :=
  Reachable_foldl trace initState Reachable.init

/-- C2 (counterexample): the claim says the join-room success reply to a
non-owner and the list-rooms reply never contain a room's `ownerToken`.  After
creating public room `R1` with token `TOK`, both the `room:list` reply and the
success reply of a token-less join by `B` carry a room record whose
`ownerToken` is `TOK`. -/
theorem c2_counterexample :
    (jsGet (run traceCreate).rooms "R1").map (fun r => r.ownerToken) = some "TOK" ∧
    ((stepFn (run traceCreate) (Event.roomList "B")).2.any
      (fun m => msgLeaksToken m "TOK")) = true ∧
    ((stepFn (run traceCreate) (Event.roomJoin "B" ⟨"R1", none, "Bob", none⟩ 7)).2.any
      (fun m => msgLeaksToken m "TOK")) = true :=
  ⟨by decide, by decide, by decide⟩

/-- C2 (amended): the server transmits `ownerToken` in the create reply, in
every successful join reply (the full `Room` record is echoed to any joiner,
owner or not), and in the `room:list` reply, which is exactly the list of
unredacted public room records. -/
theorem c2_theorem (s : ServerState) (sock : String) (data : JoinData) (now : Nat)
    (room0 : Room) (ms : List (String × Member))
    (hroom : jsGet s.rooms data.roomId = some room0)
    (hpw : passwordRejects0 room0.password data.password = false)
    (hms : jsGet s.members data.roomId = some ms) :
    ((handleRoomJoin s sock data now).2.any
        (fun m => msgLeaksToken m room0.ownerToken)) = true ∧
    (∀ (s2 : ServerState) (sock2 : String),
      (stepFn s2 (Event.roomList sock2)).2 =
        [⟨[sock2], .listReply ((s2.rooms.map (fun p => p.2)).filter (fun r => r.isPublic))⟩]) ∧
    (∀ (s3 : ServerState) (sock3 : String) (d3 : CreateData) (rid3 tok3 : String) (now3 : Nat),
      ((handleRoomCreate s3 sock3 d3 rid3 tok3 now3).2.any
        (fun m => msgLeaksToken m tok3)) = true) := by
  refine ⟨?_, ?_, ?_⟩
  · cases hrec : reclaims0 data.ownerToken room0.ownerToken <;>
      simp [handleRoomJoin, hroom, hpw, hms, hrec, msgLeaksToken, payloadRooms]
  · intro s2 sock2
    rfl
  · intro s3 sock3 d3 rid3 tok3 now3
    simp [handleRoomCreate, msgLeaksToken, payloadRooms]

/-- C2 (witness): the amended leak statement applied to the concrete one-room
state reached by `traceCreate`. -/
theorem c2_witness :
    (jsGet (run traceCreate).rooms "R1" = some (demoRoom none) ∧
      passwordRejects0 (demoRoom none).password none = false ∧
      jsGet (run traceCreate).members "R1" = some [("A", demoOwner)]) ∧
    ((handleRoomJoin (run traceCreate) "B" ⟨"R1", none, "Bob", none⟩ 7).2.any
        (fun m => msgLeaksToken m (demoRoom none).ownerToken)) = true :=
  ⟨⟨by decide, by decide, by decide⟩,
   (c2_theorem (run traceCreate) "B" ⟨"R1", none, "Bob", none⟩ 7 (demoRoom none)
      [("A", demoOwner)] (by decide) (by decide) (by decide)).1⟩

/-- C6 (counterexample): the claim says a `play:update` from a non-owner is a
complete no-op.  In the `server.js` variant, after Bob (not the owner) joins
`R1`, his `play:update` rewrites `room.currentState` and is relayed. -/
theorem c6_counterexample :
    (jsGet (run traceAB).socketToRoom "B").map (fun i => i.isOwner) = some false ∧
    (jsGet (run traceAB).rooms "R1").map (fun r => r.currentState) = some none ∧
    (jsGet (stepFn (run traceAB) (Event.playUpdate "B" samplePlay)).1.rooms "R1").map
      (fun r => r.currentState) = some (some (.play samplePlay)) ∧
    (stepFn (run traceAB) (Event.playUpdate "B" samplePlay)).2 ≠ [] :=
  ⟨by decide, by decide, by decide, by decide⟩

/-- C6 (amended): in `server.js` any socket bound to an existing room stores
its `play:update` state and relays it to the rest of the room, regardless of
ownership; the owner-only behaviour of the claim holds in the
`watch-room-server.ts` variant, where a bound non-owner is a complete no-op
and a bound owner of an existing room stores the state and relays it. -/
theorem c6_theorem
    (s : ServerState) (sock : String) (st : PlayState) (info : RoomMemberInfo) (room : Room)
    (hs : jsGet s.socketToRoom sock = some info)
    (hr : jsGet s.rooms info.roomId = some room)
    (stbl : List (String × RoomMemberInfo)) (rooms2 : List (String × Room))
    (sio2 : List (String × List String)) (sock2 : String) (st2 : PlayState)
    (info2 : RoomMemberInfo)
    (hs2 : jsGet stbl sock2 = some info2) (ho2 : info2.isOwner = false)
    (stbl3 : List (String × RoomMemberInfo)) (rooms3 : List (String × Room))
    (sio3 : List (String × List String)) (sock3 : String) (st3 : PlayState)
    (info3 : RoomMemberInfo) (room3 : Room)
    (hs3 : jsGet stbl3 sock3 = some info3) (ho3 : info3.isOwner = true)
    (hr3 : jsGet rooms3 info3.roomId = some room3) :
    ((handlePlayUpdate s sock st).1.rooms =
        jsSet s.rooms info.roomId { room with currentState := some (.play st) } ∧
      (handlePlayUpdate s sock st).2 =
        [⟨roomRecipientsExcept s.sioRooms info.roomId sock, .playUpdate st⟩]) ∧
    tsPlayUpdate stbl rooms2 sio2 sock2 st2 = (rooms2, []) ∧
    tsPlayUpdate stbl3 rooms3 sio3 sock3 st3 =
      (jsSet rooms3 info3.roomId { room3 with currentState := some (.play st3) },
       [⟨roomRecipientsExcept sio3 info3.roomId sock3, .playUpdate st3⟩]) := by
  refine ⟨⟨?_, ?_⟩, ?_, ?_⟩
  · simp [handlePlayUpdate, hs, hr]
  · simp [handlePlayUpdate, hs, hr]
  · simp [tsPlayUpdate, hs2, ho2]
  · simp [tsPlayUpdate, hs3, ho3, hr3]

/-- C6 (witness): the amended statement applied to Bob's non-owner update in
the `traceAB` state and to hand-built TypeScript-variant states. -/
theorem c6_witness :
    (jsGet (run traceAB).socketToRoom "B" = some ⟨"R1", "B", "Bob", false⟩ ∧
      jsGet (run traceAB).rooms "R1" = some { demoRoom none with memberCount := 2 } ∧
      jsGet [("B", (⟨"R1", "B", "Bob", false⟩ : RoomMemberInfo))] "B" =
        some ⟨"R1", "B", "Bob", false⟩ ∧
      (⟨"R1", "B", "Bob", false⟩ : RoomMemberInfo).isOwner = false ∧
      jsGet [("A", (⟨"R1", "A", "Alice", true⟩ : RoomMemberInfo))] "A" =
        some ⟨"R1", "A", "Alice", true⟩ ∧
      (⟨"R1", "A", "Alice", true⟩ : RoomMemberInfo).isOwner = true ∧
      jsGet [("R1", demoRoom none)] "R1" = some (demoRoom none)) ∧
    tsPlayUpdate [("B", ⟨"R1", "B", "Bob", false⟩)] [("R1", demoRoom none)]
      [("R1", ["A", "B"])] "B" samplePlay = ([("R1", demoRoom none)], []) :=
  ⟨⟨by decide, by decide, by decide, by decide, by decide, by decide, by decide⟩,
   (c6_theorem (run traceAB) "B" samplePlay ⟨"R1", "B", "Bob", false⟩
      { demoRoom none with memberCount := 2 } (by decide) (by decide)
      [("B", ⟨"R1", "B", "Bob", false⟩)] [("R1", demoRoom none)] [("R1", ["A", "B"])]
      "B" samplePlay ⟨"R1", "B", "Bob", false⟩ (by decide) (by decide)
      [("A", ⟨"R1", "A", "Alice", true⟩)] [("R1", demoRoom none)] [("R1", ["A", "B"])]
      "A" samplePlay ⟨"R1", "A", "Alice", true⟩ (demoRoom none) (by decide) (by decide)
      (by decide)).2.1⟩

/-- C7 (counterexample): the claim says a join with a wrong password against a
room whose password is set is rejected without mutation.  A room whose
password is the empty string (`password` present) accepts a join carrying the
wrong password `wrong`, replies success and adds the member, because the
guard `room.password && ...` treats `""` as falsy. -/
theorem c7_counterexample :
    (jsGet (run traceEmptyPw).rooms "R1").map (fun r => r.password) = some (some "") ∧
    ((stepFn (run traceEmptyPw)
        (Event.roomJoin "B" ⟨"R1", some "wrong", "Bob", none⟩ 3)).2.any (fun m => isJoinSuccess m.payload)) = true ∧
    ((jsGet (stepFn (run traceEmptyPw)
        (Event.roomJoin "B" ⟨"R1", some "wrong", "Bob", none⟩ 3)).1.members "R1").map
      (fun ms => (jsGet ms "B").isSome)) = some true :=
  ⟨by decide, by decide, by decide⟩

/-- C7 (amended): for a room whose password is a NON-EMPTY string, a
mismatching join is rejected exactly as the claim says: the reply is
`success = false` with the error string and no room/members fields, the state
is returned unchanged and nothing else is emitted; a room whose stored
password is the empty string instead accepts any supplied password. -/
theorem c7_theorem (s : ServerState) (sock : String) (data : JoinData) (now : Nat)
    (room0 : Room) (p : String)
    (hroom : jsGet s.rooms data.roomId = some room0)
    (hpw : room0.password = some p) (hp : p ≠ "") (hne : some p ≠ data.password)
    (s2 : ServerState) (sock2 : String) (data2 : JoinData) (now2 : Nat) (room2 : Room)
    (hroom2 : jsGet s2.rooms data2.roomId = some room2)
    (hpw2 : room2.password = some "") :
    handleRoomJoin s sock data now =
      (s, [⟨[sock], .joinReply false none none (some "密码错误")⟩]) ∧
    ((handleRoomJoin s2 sock2 data2 now2).2.any (fun m => isJoinSuccess m.payload)) = true := by
  constructor
  · have hrej : passwordRejects0 room0.password data.password = true := by
      simp [passwordRejects0, hpw, strTruthy, bne_iff_ne, hp, hne]
    simp [handleRoomJoin, hroom, hrej]
  · have hrej2 : passwordRejects0 room2.password data2.password = false := by
      simp [passwordRejects0, hpw2, strTruthy]
    cases hm : jsGet s2.members data2.roomId <;>
      simp [handleRoomJoin, hroom2, hrej2, hm, isJoinSuccess]

/-- C7 (witness): the amended statement applied to the `secret`-protected
room (wrong password rejected) and to the empty-string-password room. -/
theorem c7_witness :
    (jsGet (run tracePwSecret).rooms "R1" = some (demoRoom (some "secret")) ∧
      (demoRoom (some "secret")).password = some "secret" ∧
      ("secret" : String) ≠ "" ∧
      (some "secret" : Option String) ≠ some "nope" ∧
      jsGet (run traceEmptyPw).rooms "R1" = some (demoRoom (some "")) ∧
      (demoRoom (some "")).password = some "") ∧
    handleRoomJoin (run tracePwSecret) "B" ⟨"R1", some "nope", "Bob", none⟩ 3 =
      (run tracePwSecret, [⟨["B"], .joinReply false none none (some "密码错误")⟩]) :=
  ⟨⟨by decide, by decide, by decide, by decide, by decide, by decide⟩,
   (c7_theorem (run tracePwSecret) "B" ⟨"R1", some "nope", "Bob", none⟩ 3
      (demoRoom (some "secret")) "secret" (by decide) (by decide) (by decide) (by decide)
      (run traceEmptyPw) "B" ⟨"R1", some "wrong", "Bob", none⟩ 3 (demoRoom (some ""))
      (by decide) (by decide)).1⟩

/-- C4: a join carrying the room's `ownerToken`, issued while the original
owner connection is gone, makes the joining member the owner, reassigns
`room.ownerId` to the joining connection, refreshes `lastOwnerHeartbeat` to
the join time, and cancels any pending deletion timer for the room. -/
theorem c4_theorem (s : ServerState) (sock : String) (data : JoinData) (now : Nat)
    (room0 : Room) (ms : List (String × Member))
    (hroom : jsGet s.rooms data.roomId = some room0)
    (hpw : passwordRejects0 room0.password data.password = false)
    (htok : data.ownerToken = some room0.ownerToken)
    (hne : room0.ownerToken ≠ "")
    (hgone : jsGet s.socketToRoom room0.ownerId = none)
    (hms : jsGet s.members data.roomId = some ms)
    (hnd : s.roomDeletionTimers.Nodup) :
    jsGet (handleRoomJoin s sock data now).1.members data.roomId =
      some (jsSet ms sock
        { id := sock, name := data.userName, isOwner := true, lastHeartbeat := now }) ∧
    (jsGet (handleRoomJoin s sock data now).1.rooms data.roomId).map
      (fun r => (r.ownerId, r.lastOwnerHeartbeat)) = some (sock, now) ∧
    data.roomId ∉ (handleRoomJoin s sock data now).1.roomDeletionTimers := by
  have hrec : reclaims0 data.ownerToken room0.ownerToken = true := by
    simp [reclaims0, htok, strTruthy, bne_iff_ne, hne]
  refine ⟨?_, ?_, ?_⟩
  · simp [handleRoomJoin, hroom, hpw, hrec, hms, jsGet_jsSet]
  · simp [handleRoomJoin, hroom, hpw, hrec, hms, jsGet_jsSet]
  · simp only [handleRoomJoin, hroom, hpw, hrec, hms]
    simp only [Bool.false_eq_true, if_false, if_true]
    exact hnd.not_mem_erase

/-- C4 (witness): the theorem applied to a state where `R1` has an armed
deletion timer, no members and no bound connections, and a fresh connection
`A2` presents the token `TOK`. -/
theorem c4_witness :
    (jsGet c4state.rooms "R1" = some (demoRoom none) ∧
      passwordRejects0 (demoRoom none).password none = false ∧
      (some "TOK" : Option String) = some (demoRoom none).ownerToken ∧
      (demoRoom none).ownerToken ≠ "" ∧
      jsGet c4state.socketToRoom (demoRoom none).ownerId = none ∧
      jsGet c4state.members "R1" = some [] ∧
      c4state.roomDeletionTimers.Nodup) ∧
    (jsGet (handleRoomJoin c4state "A2" ⟨"R1", none, "Alice", some "TOK"⟩ 9).1.members "R1" =
        some (jsSet [] "A2"
          { id := "A2", name := "Alice", isOwner := true, lastHeartbeat := 9 }) ∧
      (jsGet (handleRoomJoin c4state "A2" ⟨"R1", none, "Alice", some "TOK"⟩ 9).1.rooms
          "R1").map (fun r => (r.ownerId, r.lastOwnerHeartbeat)) = some ("A2", 9) ∧
      "R1" ∉ (handleRoomJoin c4state "A2" ⟨"R1", none, "Alice", some "TOK"⟩
          9).1.roomDeletionTimers) :=
  ⟨⟨by decide, by decide, by decide, by decide, by decide, by decide, by decide⟩,
   c4_theorem c4state "A2" ⟨"R1", none, "Alice", some "TOK"⟩ 9 (demoRoom none) []
     (by decide) (by decide) (by decide) (by decide) (by decide) (by decide) (by decide)⟩

/-- C5: (a) when the last non-owner member leaves, a deletion timer is armed
for the room, the room record survives with `memberCount = 0` and only a
`member-left` notice is emitted (no deletion broadcast); (b) when the timer
fires on a still-empty room, the room is deleted with the generic
`room:deleted` broadcast and no longer appears among the public rooms of the
listing; (c) a successful join cancels the pending timer and a firing after
that join is a complete no-op. -/
theorem c5_theorem
    (s : ServerState) (sock : String) (info : RoomMemberInfo) (ms : List (String × Member))
    (room : Room)
    (hs : jsGet s.socketToRoom sock = some info)
    (ho : info.isOwner = false)
    (hms : jsGet s.members info.roomId = some ms)
    (hroom : jsGet s.rooms info.roomId = some room)
    (hempty : jsDelete ms info.userId = [])
    (s2 : ServerState) (rid2 : String)
    (hms2 : jsGet s2.members rid2 = some [])
    (hnd2 : keysNodup s2.rooms)
    (hids2 : ∀ p ∈ s2.rooms, (p.2 : Room).id = p.1)
    (s3 : ServerState) (sock3 : String) (data3 : JoinData) (now3 : Nat) (room3 : Room)
    (ms3 : List (String × Member))
    (hroom3 : jsGet s3.rooms data3.roomId = some room3)
    (hpw3 : passwordRejects0 room3.password data3.password = false)
    (hms3 : jsGet s3.members data3.roomId = some ms3)
    (hnd3 : s3.roomDeletionTimers.Nodup) :
    (jsGet (handleLeaveRoom s sock).1.rooms info.roomId =
        some { room with memberCount := 0 } ∧
      info.roomId ∈ (handleLeaveRoom s sock).1.roomDeletionTimers ∧
      (handleLeaveRoom s sock).2 =
        [⟨roomRecipientsExcept s.sioRooms info.roomId sock, .memberLeft info.userId⟩]) ∧
    (jsGet (handleTimerFire s2 rid2).1.rooms rid2 = none ∧
      (handleTimerFire s2 rid2).2 = [⟨sioGet s2.sioRooms rid2, .roomDeleted none⟩] ∧
      ∀ r ∈ ((handleTimerFire s2 rid2).1.rooms.map (fun p => p.2)).filter
          (fun r => r.isPublic), r.id ≠ rid2) ∧
    (data3.roomId ∉ (handleRoomJoin s3 sock3 data3 now3).1.roomDeletionTimers ∧
      handleTimerFire (handleRoomJoin s3 sock3 data3 now3).1 data3.roomId =
        ((handleRoomJoin s3 sock3 data3 now3).1, [])) := by
  refine ⟨⟨?_, ?_, ?_⟩, ⟨?_, ?_, ?_⟩, ?_, ?_⟩
  · simp [handleLeaveRoom, hs, hms, hroom, ho, hempty, jsGet_jsSet]
  · simp only [handleLeaveRoom, hs, hms, hroom, ho, hempty]
    simp only [Bool.false_eq_true, if_false, List.length_nil, if_true, if_pos rfl]
    exact mem_listInsert.mpr (Or.inr rfl)
  · simp [handleLeaveRoom, hs, hms, hroom, ho, hempty]
  · simp only [handleTimerFire, hms2, List.length_nil, if_pos rfl, deleteRoomState]
    exact jsGet_jsDelete_self rid2 hnd2
  · simp [handleTimerFire, hms2, deleteRoomState]
  · intro r hr
    simp only [handleTimerFire, hms2, List.length_nil, if_pos rfl, deleteRoomState] at hr
    simp only [List.mem_filter, List.mem_map] at hr
    obtain ⟨⟨p, hp, hpr⟩, _⟩ := hr
    rw [← hpr, hids2 p (mem_jsDelete hp)]
    exact mem_jsDelete_ne hnd2 hp
  · cases hrec : reclaims0 data3.ownerToken room3.ownerToken <;>
      · simp only [handleRoomJoin, hroom3, hpw3, hrec, hms3]
        simp only [Bool.false_eq_true, if_false, if_true]
        exact hnd3.not_mem_erase
  · have hlen : (jsSet ms3 sock3
        { id := sock3, name := data3.userName,
          isOwner := reclaims0 data3.ownerToken room3.ownerToken,
          lastHeartbeat := now3 }).length ≠ 0 := by
      intro hcon
      exact jsSet_ne_nil ms3 sock3 _ (List.length_eq_zero.mp hcon)
    cases hrec : reclaims0 data3.ownerToken room3.ownerToken <;>
      · rw [hrec] at hlen
        simp [handleRoomJoin, hroom3, hpw3, hrec, hms3, handleTimerFire, jsGet_jsSet, hlen]

/-- C5 (witness): part (a) applied to the room whose only member is the
non-owner Bob, part (b) to the emptied state it produces, part (c) to a fresh
join of `R1`. -/
theorem c5_witness :
    (jsGet c5state.socketToRoom "B" = some ⟨"R1", "B", "Bob", false⟩ ∧
      jsGet c5state.members "R1" = some [("B", bobMember)] ∧
      jsGet c5state.rooms "R1" = some (demoRoom none) ∧
      jsGet (handleLeaveRoom c5state "B").1.members "R1" = some [] ∧
      jsGet (run traceCreate).rooms "R1" = some (demoRoom none) ∧
      jsGet (run traceCreate).members "R1" = some [("A", demoOwner)]) ∧
    (jsGet (handleLeaveRoom c5state "B").1.rooms "R1" =
        some { demoRoom none with memberCount := 0 } ∧
      "R1" ∈ (handleLeaveRoom c5state "B").1.roomDeletionTimers) :=
  ⟨⟨by decide, by decide, by decide, by decide, by decide, by decide⟩,
   ⟨((c5_theorem c5state "B" ⟨"R1", "B", "Bob", false⟩ [("B", bobMember)]
        (demoRoom none) (by decide) (by decide) (by decide) (by decide) (by decide)
        (handleLeaveRoom c5state "B").1 "R1" (by decide) (by decide) (by decide)
        (run traceCreate) "B" ⟨"R1", none, "Bob", none⟩ 3 (demoRoom none)
        [("A", demoOwner)] (by decide) (by decide) (by decide) (by decide)).1).1,
    ((c5_theorem c5state "B" ⟨"R1", "B", "Bob", false⟩ [("B", bobMember)]
        (demoRoom none) (by decide) (by decide) (by decide) (by decide) (by decide)
        (handleLeaveRoom c5state "B").1 "R1" (by decide) (by decide) (by decide)
        (run traceCreate) "B" ⟨"R1", none, "Bob", none⟩ 3 (demoRoom none)
        [("A", demoOwner)] (by decide) (by decide) (by decide) (by decide)).1).2.1⟩⟩

/-- C10: a connection bound to room A that successfully joins room B has its
binding overwritten to B, while its member record in A survives untouched
(A's room record, hence `memberCount`, is unchanged), is listed to a later
joiner of A, and the connection's subsequent leave removes it from B's member
map but not from A's. -/
theorem c10_theorem (s : ServerState) (sockX : String) (infoA : RoomMemberInfo)
    (data : JoinData) (now : Nat) (roomB roomA : Room) (msB msA : List (String × Member))
    (memX : Member)
    (hbind : jsGet s.socketToRoom sockX = some infoA)
    (hAB : data.roomId ≠ infoA.roomId)
    (hroomB : jsGet s.rooms data.roomId = some roomB)
    (hpw : passwordRejects0 roomB.password data.password = false)
    (hnotok : data.ownerToken = none)
    (hmsB : jsGet s.members data.roomId = some msB)
    (hndB : keysNodup msB)
    (hroomA : jsGet s.rooms infoA.roomId = some roomA)
    (hmsA : jsGet s.members infoA.roomId = some msA)
    (hmemX : jsGet msA sockX = some memX)
    (sockY : String) (nowY : Nat) (dataY : JoinData)
    (hYA : dataY.roomId = infoA.roomId)
    (hXY : sockX ≠ sockY)
    (hpwA : passwordRejects0 roomA.password dataY.password = false)
    (hnotokY : dataY.ownerToken = none) :
    (jsGet (handleRoomJoin s sockX data now).1.socketToRoom sockX).map
      (fun i => i.roomId) = some data.roomId ∧
    jsGet (handleRoomJoin s sockX data now).1.members infoA.roomId = some msA ∧
    jsGet (handleRoomJoin s sockX data now).1.rooms infoA.roomId = some roomA ∧
    memX ∈ replyMembers
      (handleRoomJoin (handleRoomJoin s sockX data now).1 sockY dataY nowY).2 ∧
    jsGet (handleLeaveRoom (handleRoomJoin s sockX data now).1 sockX).1.members
      infoA.roomId = some msA ∧
    (jsGet (handleLeaveRoom (handleRoomJoin s sockX data now).1 sockX).1.members
      data.roomId).map (fun l => jsGet l sockX) = some none := by
  have hrec : reclaims0 data.ownerToken roomB.ownerToken = false := by
    simp [reclaims0, hnotok, strTruthy]
  have h1 : (jsGet (handleRoomJoin s sockX data now).1.socketToRoom sockX).map
      (fun i => i.roomId) = some data.roomId := by
    simp [handleRoomJoin, hroomB, hpw, hrec, hmsB, jsGet_jsSet]
  have h2 : jsGet (handleRoomJoin s sockX data now).1.members infoA.roomId = some msA := by
    simp only [handleRoomJoin, hroomB, hpw, hrec, hmsB]
    simp only [Bool.false_eq_true, if_false]
    rw [jsGet_jsSet]
    simp [hAB, hmsA]
  have h3 : jsGet (handleRoomJoin s sockX data now).1.rooms infoA.roomId = some roomA := by
    simp only [handleRoomJoin, hroomB, hpw, hrec, hmsB]
    simp only [Bool.false_eq_true, if_false]
    rw [jsGet_jsSet]
    simp [hAB, hroomA]
  have hb1 : jsGet (handleRoomJoin s sockX data now).1.socketToRoom sockX =
      some ⟨data.roomId, sockX, data.userName, false⟩ := by
    simp [handleRoomJoin, hroomB, hpw, hrec, hmsB, jsGet_jsSet]
  have hm1 : jsGet (handleRoomJoin s sockX data now).1.members data.roomId =
      some (jsSet msB sockX
        { id := sockX, name := data.userName, isOwner := false, lastHeartbeat := now }) := by
    simp [handleRoomJoin, hroomB, hpw, hrec, hmsB, jsGet_jsSet]
  have hrecY : reclaims0 dataY.ownerToken roomA.ownerToken = false := by
    simp [reclaims0, hnotokY, strTruthy]
  have h4 : memX ∈ replyMembers
      (handleRoomJoin (handleRoomJoin s sockX data now).1 sockY dataY nowY).2 := by
    have hrY : jsGet (handleRoomJoin s sockX data now).1.rooms dataY.roomId = some roomA := by
      rw [hYA]; exact h3
    have hmY : jsGet (handleRoomJoin s sockX data now).1.members dataY.roomId = some msA := by
      rw [hYA]; exact h2
    set s1 := (handleRoomJoin s sockX data now).1 with hs1
    simp only [handleRoomJoin, hrY, hpwA, hrecY, hmY, Bool.false_eq_true, if_false,
      replyMembers, List.foldr_cons, List.foldr_nil, List.append_nil, List.nil_append]
    exact List.mem_map_of_mem _ (mem_jsSet_of_ne (jsGet_mem hmemX) hXY)
  have hr1 : jsGet (handleRoomJoin s sockX data now).1.rooms data.roomId =
      some { roomB with memberCount := (jsSet msB sockX
        { id := sockX, name := data.userName, isOwner := false,
          lastHeartbeat := now }).length } := by
    simp [handleRoomJoin, hroomB, hpw, hrec, hmsB, jsGet_jsSet]
  have h5 : jsGet (handleLeaveRoom (handleRoomJoin s sockX data now).1 sockX).1.members
      infoA.roomId = some msA := by
    simp [handleLeaveRoom, hb1, hm1, hr1, jsGet_jsSet, hAB, h2]
  have h6 : (jsGet (handleLeaveRoom (handleRoomJoin s sockX data now).1 sockX).1.members
      data.roomId).map (fun l => jsGet l sockX) = some none := by
    have hnd1 : keysNodup (jsSet msB sockX
        { id := sockX, name := data.userName, isOwner := false, lastHeartbeat := now }) :=
      keysNodup_jsSet sockX _ hndB
    simp [handleLeaveRoom, hb1, hm1, hr1, jsGet_jsSet, jsGet_jsDelete_self sockX hnd1]
  exact ⟨h1, h2, h3, h4, h5, h6⟩

/-- C10 (witness): Bob, already a member of `R1`, joins the second room `R2`;
his binding moves to `R2` while his ghost member record stays in `R1`. -/
theorem c10_witness :
    (jsGet (run traceTwoRooms).socketToRoom "B" = some ⟨"R1", "B", "Bob", false⟩ ∧
      jsGet (run traceTwoRooms).members "R1" =
        some [("A", demoOwner), ("B", bobMember)]) ∧
    ((jsGet (handleRoomJoin (run traceTwoRooms) "B" ⟨"R2", none, "Bob", none⟩
        2).1.socketToRoom "B").map (fun i => i.roomId) = some "R2" ∧
      jsGet (handleRoomJoin (run traceTwoRooms) "B" ⟨"R2", none, "Bob", none⟩
        2).1.members "R1" = some [("A", demoOwner), ("B", bobMember)]) := by
  have happ := c10_theorem (run traceTwoRooms) "B" ⟨"R1", "B", "Bob", false⟩
    ⟨"R2", none, "Bob", none⟩ 2 oscarRoom { demoRoom none with memberCount := 2 }
    [("O", oscarOwner)] [("A", demoOwner), ("B", bobMember)] bobMember
    (by decide) (by decide) (by decide) (by decide) (by decide) (by decide) (by decide)
    (by decide) (by decide) (by decide)
    "C" 3 ⟨"R1", none, "Cara", none⟩ (by decide) (by decide) (by decide) (by decide)
  exact ⟨⟨by decide, by decide⟩, happ.1, happ.2.1⟩

/-- C8 (counterexample): the claim says every event referencing a deleted
room is a no-op delivering no message.  After the owner-timeout sweep deletes
`R1` (leaving the connection bindings and the socket.io room intact), Bob's
`chat:message` is still broadcast to both sockets of the dead room. -/
theorem c8_counterexample :
    jsGet (run traceSwept).rooms "R1" = none ∧
    jsGet (run traceSwept).members "R1" = none ∧
    (jsGet (run traceSwept).socketToRoom "B").map (fun i => i.roomId) = some "R1" ∧
    sioGet (run traceSwept).sioRooms "R1" = ["A", "B"] ∧
    (stepFn (run traceSwept) (Event.chatMessage "B" "hi" .text "m1" 400000)).2 =
      [⟨["A", "B"], .chatMessage ⟨"m1", "B", "Bob", "hi", .text, 400000⟩⟩] :=
  ⟨by decide, by decide, by decide, by decide, by decide⟩

/-- C8 (amended): once a room id is absent from the registry, the handlers
that consult the registry behave as absent-room no-ops (join replies the
room-not-found error without mutating anything, play-update and play-change
do nothing), and the deleted room is absent from the public listing; but
`chat:message` and `play:seek` from a connection whose stale binding still
names the deleted room are still emitted to whatever sockets remain in the
socket.io room. -/
theorem c8_theorem (s : ServerState) (rid : String)
    (hgoneR : jsGet s.rooms rid = none)
    (sock2 : String) (data : JoinData) (now : Nat) (hdata : data.roomId = rid)
    (sock : String) (info : RoomMemberInfo)
    (hbind : jsGet s.socketToRoom sock = some info) (hinfo : info.roomId = rid)
    (st : PlayState) (content : String) (kind : MsgType) (mid : String) (now2 : Nat)
    (t : Nat)
    (hids : ∀ p ∈ s.rooms, (p.2 : Room).id = p.1) :
    handleRoomJoin s sock2 data now =
      (s, [⟨[sock2], .joinReply false none none (some "房间不存在")⟩]) ∧
    handlePlayUpdate s sock st = (s, []) ∧
    handlePlayChange s sock st = (s, []) ∧
    handleChatMessage s sock content kind mid now2 =
      (s, [⟨sioGet s.sioRooms rid,
        .chatMessage ⟨mid, info.userId, info.userName, content, kind, now2⟩⟩]) ∧
    handlePlaySeek s sock t =
      (s, [⟨roomRecipientsExcept s.sioRooms rid sock, .playSeek t⟩]) ∧
    ∀ r ∈ (s.rooms.map (fun p => p.2)).filter (fun r => r.isPublic), r.id ≠ rid := by
  have hR : jsGet s.rooms info.roomId = none := by rw [hinfo]; exact hgoneR
  refine ⟨?_, ?_, ?_, ?_, ?_, ?_⟩
  · have hgone2 : jsGet s.rooms data.roomId = none := by rw [hdata]; exact hgoneR
    simp [handleRoomJoin, hgone2]
  · simp [handlePlayUpdate, hbind, hR]
  · cases ho : info.isOwner <;> simp [handlePlayChange, hbind, hR, ho]
  · simp [handleChatMessage, hbind, hinfo]
  · simp [handlePlaySeek, hbind, hinfo]
  · intro r hr
    simp only [List.mem_filter, List.mem_map] at hr
    obtain ⟨⟨p, hp, hpr⟩, _⟩ := hr
    rw [← hpr, hids p hp]
    exact (jsGet_eq_none_iff s.rooms rid).mp hgoneR p hp

/-- C8 (witness): the amended statement applied to the state left by the
owner-timeout sweep deleting `R1`. -/
theorem c8_witness :
    (jsGet (run traceSwept).rooms "R1" = none ∧
      jsGet (run traceSwept).socketToRoom "B" = some ⟨"R1", "B", "Bob", false⟩) ∧
    handleChatMessage (run traceSwept) "B" "hi" .text "m1" 400000 =
      (run traceSwept, [⟨sioGet (run traceSwept).sioRooms "R1",
        .chatMessage ⟨"m1", "B", "Bob", "hi", .text, 400000⟩⟩]) := by
  have happ := c8_theorem (run traceSwept) "R1" (by decide)
    "B" ⟨"R1", none, "Bob", none⟩ 400000 (by decide)
    "B" ⟨"R1", "B", "Bob", false⟩ (by decide) (by decide)
    samplePlay "hi" .text "m1" 400000 7 (by decide)
  exact ⟨⟨by decide, by decide⟩, happ.2.2.2.1⟩

theorem ne_of_some_of_none {α : Type} {m : List (String × α)} {a b : String} {v : α}
    (h1 : jsGet m a = some v) (h2 : jsGet m b = none) : a ≠ b := by
  rintro rfl
  rw [h1] at h2
  cases h2

theorem roomGone_delete {s : ServerState} {rid : String} (h : roomGone s rid)
    (rid2 : String) (skip : Bool) : roomGone (deleteRoomState s rid2 skip).1 rid := by
  obtain ⟨hR, hM, hT, hB⟩ := h
  exact ⟨jsGet_none_jsDelete rid2 hR, jsGet_none_jsDelete rid2 hM, hT, hB⟩

theorem roomGone_sweep {rid : String} (now : Nat) :
    ∀ (l : List (String × Room)) (p : ServerState × List OutMsg), roomGone p.1 rid →
      roomGone (l.foldl (sweepOne now) p).1 rid := by
  intro l
  induction l with
  | nil => intro p h; simpa using h
  | cons q rest ih =>
    intro p h
    simp only [List.foldl_cons]
    apply ih
    by_cases hc : 300000 < now - q.2.lastOwnerHeartbeat
    · simpa [sweepOne, hc] using roomGone_delete h q.1 false
    · simpa [sweepOne, hc] using h

theorem roomGone_leave {s : ServerState} {rid : String} (sock : String)
    (h : roomGone s rid) : roomGone (handleLeaveRoom s sock).1 rid := by
  obtain ⟨hR, hM, hT, hB⟩ := h
  cases hb : jsGet s.socketToRoom sock with
  | none =>
    refine ⟨?_, ?_, ?_, ?_⟩ <;> simp only [handleLeaveRoom, hb]
    · exact hR
    · exact hM
    · exact hT
    · exact fun p hp => hB p hp
  | some info =>
    have hrid : info.roomId ≠ rid := hB (sock, info) (jsGet_mem hb)
    cases hm : jsGet s.members info.roomId with
    | none =>
      refine ⟨?_, ?_, ?_, ?_⟩ <;> simp only [handleLeaveRoom, hb, hm]
      · exact hR
      · exact hM
      · exact hT
      · exact fun p hp => hB p (mem_jsDelete hp)
    | some roomMembers =>
      have hrooms1 : ∀ rooms1, (rooms1 = s.rooms ∨
          ∃ room1 : Room, rooms1 = jsSet s.rooms info.roomId room1) →
          jsGet rooms1 rid = none := by
        rintro rooms1 (rfl | ⟨room1, rfl⟩)
        · exact hR
        · rw [jsGet_jsSet]
          simp [hrid, hR]
      cases ho : info.isOwner with
      | true =>
        refine ⟨?_, ?_, ?_, ?_⟩ <;>
            simp only [handleLeaveRoom, hb, hm, ho, if_true, deleteRoomState]
        · apply jsGet_none_jsDelete
          cases hroom : jsGet s.rooms info.roomId with
          | none => simpa [hroom] using hR
          | some room =>
            simp only [hroom]
            exact hrooms1 _ (Or.inr ⟨_, rfl⟩)
        · apply jsGet_none_jsDelete
          rw [jsGet_jsSet]
          simp [hrid, hM]
        · intro hmem
          exact hT (List.mem_of_mem_erase hmem)
        · intro p hp
          exact hB p (mem_foldl_jsDelete _ _ (mem_jsDelete hp))
      | false =>
        refine ⟨?_, ?_, ?_, ?_⟩ <;>
            simp only [handleLeaveRoom, hb, hm, ho, Bool.false_eq_true, if_false]
        · cases hroom : jsGet s.rooms info.roomId with
          | none => simpa [hroom] using hR
          | some room =>
            simp only [hroom]
            exact hrooms1 _ (Or.inr ⟨_, rfl⟩)
        · rw [jsGet_jsSet]
          simp [hrid, hM]
        · by_cases hlen : (jsDelete roomMembers info.userId).length = 0
          · simp only [hlen, if_pos rfl]
            intro hmem
            rcases mem_listInsert.mp hmem with h2 | h2
            · exact hT h2
            · exact hrid h2.symm
          · simp only [hlen, if_neg hlen]
            exact hT
        · intro p hp
          exact hB p (mem_jsDelete hp)

theorem roomGone_step (s : ServerState) (rid : String) (e : Event)
    (h : roomGone s rid) (hne : ¬ introducesId e rid) :
    roomGone (stepFn s e).1 rid := by
  obtain ⟨hR, hM, hT, hB⟩ := h
  cases e with
  | roomCreate sock d newRoomId tok now =>
    have hid : newRoomId ≠ rid := fun he => hne (by simpa [introducesId] using he)
    refine ⟨?_, ?_, ?_, ?_⟩ <;> simp only [stepFn, handleRoomCreate]
    · rw [jsGet_jsSet]
      simp [hid, hR]
    · rw [jsGet_jsSet]
      simp [hid, hM]
    · exact hT
    · intro p hp
      rcases mem_jsSet hp with h2 | h2
      · rw [h2]
        exact hid
      · exact hB p h2
  | roomJoin sock d now =>
    cases hr : jsGet s.rooms d.roomId with
    | none =>
      have hst : (stepFn s (.roomJoin sock d now)).1 = s := by
        simp [stepFn, handleRoomJoin, hr]
      rw [hst]
      exact ⟨hR, hM, hT, hB⟩
    | some room0 =>
      have hrid : d.roomId ≠ rid := ne_of_some_of_none hr hR
      cases hpw : passwordRejects0 room0.password d.password with
      | true =>
        have hst : (stepFn s (.roomJoin sock d now)).1 = s := by
          simp [stepFn, handleRoomJoin, hr, hpw]
        rw [hst]
        exact ⟨hR, hM, hT, hB⟩
      | false =>
        have hrooms1 : ∀ rooms1 : List (String × Room), (rooms1 = s.rooms ∨
            ∃ room1 : Room, rooms1 = jsSet s.rooms d.roomId room1) →
            ∀ room2 : Room, jsGet (jsSet rooms1 d.roomId room2) rid = none := by
          rintro rooms1 (rfl | ⟨room1, rfl⟩) room2 <;>
          · rw [jsGet_jsSet]
            try rw [jsGet_jsSet]
            simp [hrid, hR]
        cases hm : jsGet s.members d.roomId with
        | some roomMembers =>
          cases hrec : reclaims0 d.ownerToken room0.ownerToken with
          | true =>
            refine ⟨?_, ?_, ?_, ?_⟩ <;>
                simp only [stepFn, handleRoomJoin, hr, hpw, hrec, hm, Bool.false_eq_true,
                  if_false, if_true]
            · exact hrooms1 _ (Or.inr ⟨_, rfl⟩) _
            · rw [jsGet_jsSet]
              simp [hrid, hM]
            · intro hmem
              exact hT (List.mem_of_mem_erase hmem)
            · intro p hp
              rcases mem_jsSet hp with h2 | h2
              · rw [h2]
                exact hrid
              · exact hB p h2
          | false =>
            refine ⟨?_, ?_, ?_, ?_⟩ <;>
                simp only [stepFn, handleRoomJoin, hr, hpw, hrec, hm, Bool.false_eq_true,
                  if_false]
            · exact hrooms1 _ (Or.inl rfl) _
            · rw [jsGet_jsSet]
              simp [hrid, hM]
            · intro hmem
              exact hT (List.mem_of_mem_erase hmem)
            · intro p hp
              rcases mem_jsSet hp with h2 | h2
              · rw [h2]
                exact hrid
              · exact hB p h2
        | none =>
          cases hrec : reclaims0 d.ownerToken room0.ownerToken with
          | true =>
            refine ⟨?_, ?_, ?_, ?_⟩ <;>
                simp only [stepFn, handleRoomJoin, hr, hpw, hrec, hm, Bool.false_eq_true,
                  if_false, if_true]
            · rw [jsGet_jsSet]
              simp [hrid, hR]
            · exact hM
            · intro hmem
              exact hT (List.mem_of_mem_erase hmem)
            · intro p hp
              rcases mem_jsSet hp with h2 | h2
              · rw [h2]
                exact hrid
              · exact hB p h2
          | false =>
            refine ⟨?_, ?_, ?_, ?_⟩ <;>
                simp only [stepFn, handleRoomJoin, hr, hpw, hrec, hm, Bool.false_eq_true,
                  if_false]
            · exact hR
            · exact hM
            · intro hmem
              exact hT (List.mem_of_mem_erase hmem)
            · intro p hp
              rcases mem_jsSet hp with h2 | h2
              · rw [h2]
                exact hrid
              · exact hB p h2
  | roomLeave sock => exact roomGone_leave sock ⟨hR, hM, hT, hB⟩
  | roomList sock =>
    have hst : (stepFn s (.roomList sock)).1 = s := rfl
    rw [hst]
    exact ⟨hR, hM, hT, hB⟩
  | playUpdate sock st =>
    cases hb : jsGet s.socketToRoom sock with
    | none =>
      have hst : (stepFn s (.playUpdate sock st)).1 = s := by
        simp [stepFn, handlePlayUpdate, hb]
      rw [hst]
      exact ⟨hR, hM, hT, hB⟩
    | some info =>
      have hrid : info.roomId ≠ rid := hB (sock, info) (jsGet_mem hb)
      cases hroom : jsGet s.rooms info.roomId with
      | none =>
        have hst : (stepFn s (.playUpdate sock st)).1 = s := by
          simp [stepFn, handlePlayUpdate, hb, hroom]
        rw [hst]
        exact ⟨hR, hM, hT, hB⟩
      | some room =>
        refine ⟨?_, ?_, ?_, ?_⟩ <;>
            simp only [stepFn, handlePlayUpdate, hb, hroom]
        · rw [jsGet_jsSet]
          simp [hrid, hR]
        · exact hM
        · exact hT
        · exact fun p hp => hB p hp
  | playSeek sock t =>
    have hst : (stepFn s (.playSeek sock t)).1 = s := by
      cases hb : jsGet s.socketToRoom sock <;> simp [stepFn, handlePlaySeek, hb]
    rw [hst]
    exact ⟨hR, hM, hT, hB⟩
  | playPlay sock =>
    have hst : (stepFn s (.playPlay sock)).1 = s := by
      cases hb : jsGet s.socketToRoom sock <;> simp [stepFn, handlePlayPlay, hb]
    rw [hst]
    exact ⟨hR, hM, hT, hB⟩
  | playPause sock =>
    have hst : (stepFn s (.playPause sock)).1 = s := by
      cases hb : jsGet s.socketToRoom sock <;> simp [stepFn, handlePlayPause, hb]
    rw [hst]
    exact ⟨hR, hM, hT, hB⟩
  | playChange sock st =>
    cases hb : jsGet s.socketToRoom sock with
    | none =>
      have hst : (stepFn s (.playChange sock st)).1 = s := by
        simp [stepFn, handlePlayChange, hb]
      rw [hst]
      exact ⟨hR, hM, hT, hB⟩
    | some info =>
      have hrid : info.roomId ≠ rid := hB (sock, info) (jsGet_mem hb)
      cases ho : info.isOwner with
      | false =>
        have hst : (stepFn s (.playChange sock st)).1 = s := by
          simp [stepFn, handlePlayChange, hb, ho]
        rw [hst]
        exact ⟨hR, hM, hT, hB⟩
      | true =>
        cases hroom : jsGet s.rooms info.roomId with
        | none =>
          have hst : (stepFn s (.playChange sock st)).1 = s := by
            simp [stepFn, handlePlayChange, hb, ho, hroom]
          rw [hst]
          exact ⟨hR, hM, hT, hB⟩
        | some room =>
          refine ⟨?_, ?_, ?_, ?_⟩ <;>
              simp only [stepFn, handlePlayChange, hb, ho, hroom, Bool.not_true,
                Bool.false_eq_true, if_false]
          · rw [jsGet_jsSet]
            simp [hrid, hR]
          · exact hM
          · exact hT
          · exact fun p hp => hB p hp
  | liveChange sock st =>
    cases hb : jsGet s.socketToRoom sock with
    | none =>
      have hst : (stepFn s (.liveChange sock st)).1 = s := by
        simp [stepFn, handleLiveChange, hb]
      rw [hst]
      exact ⟨hR, hM, hT, hB⟩
    | some info =>
      have hrid : info.roomId ≠ rid := hB (sock, info) (jsGet_mem hb)
      cases ho : info.isOwner with
      | false =>
        have hst : (stepFn s (.liveChange sock st)).1 = s := by
          simp [stepFn, handleLiveChange, hb, ho]
        rw [hst]
        exact ⟨hR, hM, hT, hB⟩
      | true =>
        cases hroom : jsGet s.rooms info.roomId with
        | none =>
          have hst : (stepFn s (.liveChange sock st)).1 = s := by
            simp [stepFn, handleLiveChange, hb, ho, hroom]
          rw [hst]
          exact ⟨hR, hM, hT, hB⟩
        | some room =>
          refine ⟨?_, ?_, ?_, ?_⟩ <;>
              simp only [stepFn, handleLiveChange, hb, ho, hroom, Bool.not_true,
                Bool.false_eq_true, if_false]
          · rw [jsGet_jsSet]
            simp [hrid, hR]
          · exact hM
          · exact hT
          · exact fun p hp => hB p hp
  | chatMessage sock content kind mid now =>
    have hst : (stepFn s (.chatMessage sock content kind mid now)).1 = s := by
      cases hb : jsGet s.socketToRoom sock <;> simp [stepFn, handleChatMessage, hb]
    rw [hst]
    exact ⟨hR, hM, hT, hB⟩
  | voiceOffer sock target payload =>
    have hst : (stepFn s (.voiceOffer sock target payload)).1 = s := by
      cases hb : jsGet s.socketToRoom sock <;> simp [stepFn, handleVoiceOffer, hb]
    rw [hst]
    exact ⟨hR, hM, hT, hB⟩
  | voiceAnswer sock target payload =>
    have hst : (stepFn s (.voiceAnswer sock target payload)).1 = s := by
      cases hb : jsGet s.socketToRoom sock <;> simp [stepFn, handleVoiceAnswer, hb]
    rw [hst]
    exact ⟨hR, hM, hT, hB⟩
  | voiceIce sock target payload =>
    have hst : (stepFn s (.voiceIce sock target payload)).1 = s := by
      cases hb : jsGet s.socketToRoom sock <;> simp [stepFn, handleVoiceIce, hb]
    rw [hst]
    exact ⟨hR, hM, hT, hB⟩
  | heartbeat sock now =>
    cases hb : jsGet s.socketToRoom sock with
    | none =>
      have hst : (stepFn s (.heartbeat sock now)).1 = s := by
        simp [stepFn, handleHeartbeat, hb]
      rw [hst]
      exact ⟨hR, hM, hT, hB⟩
    | some info =>
      have hrid : info.roomId ≠ rid := hB (sock, info) (jsGet_mem hb)
      have hmembers : ∀ ms2 : List (String × Member),
          jsGet (jsSet s.members info.roomId ms2) rid = none := by
        intro ms2
        rw [jsGet_jsSet]
        simp [hrid, hM]
      have hroomsU : ∀ room2 : Room,
          jsGet (jsSet s.rooms info.roomId room2) rid = none := by
        intro room2
        rw [jsGet_jsSet]
        simp [hrid, hR]
      refine ⟨?_, ?_, ?_, ?_⟩ <;> simp only [stepFn, handleHeartbeat, hb]
      · cases ho : info.isOwner with
        | false => simpa [ho] using hR
        | true =>
          cases hroom : jsGet s.rooms info.roomId with
          | none => simpa [ho, hroom] using hR
          | some room => simpa [ho, hroom] using hroomsU _
      · cases hm : jsGet s.members info.roomId with
        | none => simpa [hm] using hM
        | some roomMembers =>
          cases hmem : jsGet roomMembers info.userId with
          | none => simpa [hm, hmem] using hM
          | some member => simpa [hm, hmem] using hmembers _
      · exact hT
      · exact fun p hp => hB p hp
  | disconnect sock =>
    have hleave := roomGone_leave sock (⟨hR, hM, hT, hB⟩ : roomGone s rid)
    obtain ⟨h1, h2, h3, h4⟩ := hleave
    exact ⟨h1, h2, h3, h4⟩
  | timerFire rid2 =>
    cases hm : jsGet s.members rid2 with
    | none =>
      have hst : (stepFn s (.timerFire rid2)).1 = s := by
        simp [stepFn, handleTimerFire, hm]
      rw [hst]
      exact ⟨hR, hM, hT, hB⟩
    | some l =>
      by_cases hlen : l.length = 0
      · refine ⟨?_, ?_, ?_, ?_⟩ <;>
            simp only [stepFn, handleTimerFire, hm, hlen, if_pos rfl, deleteRoomState]
        · exact jsGet_none_jsDelete rid2 hR
        · exact jsGet_none_jsDelete rid2 hM
        · intro hmem
          exact hT (List.mem_of_mem_erase hmem)
        · exact fun p hp => hB p hp
      · have hst : (stepFn s (.timerFire rid2)).1 = s := by
          simp [stepFn, handleTimerFire, hm, hlen]
        rw [hst]
        exact ⟨hR, hM, hT, hB⟩
  | cleanupSweep now =>
    exact roomGone_sweep now s.rooms (s, []) ⟨hR, hM, hT, hB⟩

theorem roomGone_foldl {rid : String} (tr : List Event) :
    ∀ s : ServerState, roomGone s rid → (∀ e ∈ tr, ¬ introducesId e rid) →
      roomGone (tr.foldl (fun s2 e => (stepFn s2 e).1) s) rid := by
  induction tr with
  | nil => intro s h _; simpa using h
  | cons e rest ih =>
    intro s h hall
    simp only [List.foldl_cons]
    exact ih (stepFn s e).1 (roomGone_step s rid e h (hall e (List.mem_cons_self e rest)))
      (fun e2 he2 => hall e2 (List.mem_cons_of_mem e he2))

theorem jsGet_ne_none_of_mem {α : Type} {m : List (String × α)} {q : String × α}
    (h : q ∈ m) : jsGet m q.1 ≠ none := by
  intro hnone
  exact (jsGet_eq_none_iff m q.1).mp hnone q h rfl

/-- C3: when the owner of a room that still has other members leaves, every
remaining member receives exactly one `room:deleted` event, which carries the
reason `owner_left` (so the generic deletion broadcast was skipped), every
remaining member's connection binding is evicted, the room, its member map
and any pending deletion timer are removed, no connection binding still names
the room, and the room id stays dead under every subsequent event sequence
that does not create a fresh room under the same id. -/
theorem c3_theorem (s : ServerState) (sock : String) (info : RoomMemberInfo)
    (ms : List (String × Member)) (room : Room)
    (hbind : jsGet s.socketToRoom sock = some info)
    (ho : info.isOwner = true)
    (hms : jsGet s.members info.roomId = some ms)
    (hroom : jsGet s.rooms info.roomId = some room)
    (hrem : jsDelete ms info.userId ≠ [])
    (hndstbl : keysNodup s.socketToRoom)
    (hndrooms : keysNodup s.rooms)
    (hndmembers : keysNodup s.members)
    (htnd : s.roomDeletionTimers.Nodup)
    (hsio : ∀ p ∈ jsDelete ms info.userId,
      (p : String × Member).1 ∈ sioGet s.sioRooms info.roomId ∧ p.1 ≠ sock)
    (hbindsub : ∀ q ∈ s.socketToRoom, (q.2 : RoomMemberInfo).roomId = info.roomId →
      q.1 = sock ∨ q.1 ∈ (jsDelete ms info.userId).map (fun p => p.1)) :
    (∀ p ∈ jsDelete ms info.userId,
      recvCount (handleLeaveRoom s sock).2 p.1 isOwnerLeftMsg = 1 ∧
      recvCount (handleLeaveRoom s sock).2 p.1 isRoomDeletedMsg = 1) ∧
    (∀ p ∈ jsDelete ms info.userId,
      jsGet (handleLeaveRoom s sock).1.socketToRoom (p : String × Member).1 = none) ∧
    roomGone (handleLeaveRoom s sock).1 info.roomId ∧
    (∀ tr : List Event, (∀ e ∈ tr, ¬ introducesId e info.roomId) →
      roomGone (tr.foldl (fun s2 e => (stepFn s2 e).1) (handleLeaveRoom s sock).1)
        info.roomId) := by
  have hmsgs : (handleLeaveRoom s sock).2 =
      [⟨roomRecipientsExcept s.sioRooms info.roomId sock, .memberLeft info.userId⟩,
       ⟨roomRecipientsExcept s.sioRooms info.roomId sock,
         .roomDeleted (some "owner_left")⟩] := by
    simp [handleLeaveRoom, hbind, hms, hroom, ho]
  have hstbl : (handleLeaveRoom s sock).1.socketToRoom =
      jsDelete (((jsDelete ms info.userId).map (fun p => p.1)).foldl jsDelete
        s.socketToRoom) sock := by
    simp [handleLeaveRoom, hbind, hms, hroom, ho, deleteRoomState]
  have hroomsF : (handleLeaveRoom s sock).1.rooms =
      jsDelete (jsSet s.rooms info.roomId
        { room with memberCount := (jsDelete ms info.userId).length }) info.roomId := by
    simp [handleLeaveRoom, hbind, hms, hroom, ho, deleteRoomState]
  have hmembersF : (handleLeaveRoom s sock).1.members =
      jsDelete (jsSet s.members info.roomId (jsDelete ms info.userId)) info.roomId := by
    simp [handleLeaveRoom, hbind, hms, hroom, ho, deleteRoomState]
  have htimersF : (handleLeaveRoom s sock).1.roomDeletionTimers =
      s.roomDeletionTimers.erase info.roomId := by
    simp [handleLeaveRoom, hbind, hms, hroom, ho, deleteRoomState]
  have hgone : roomGone (handleLeaveRoom s sock).1 info.roomId := by
    refine ⟨?_, ?_, ?_, ?_⟩
    · rw [hroomsF]
      exact jsGet_jsDelete_self info.roomId (keysNodup_jsSet _ _ hndrooms)
    · rw [hmembersF]
      exact jsGet_jsDelete_self info.roomId (keysNodup_jsSet _ _ hndmembers)
    · rw [htimersF]
      exact htnd.not_mem_erase
    · intro q hq
      rw [hstbl] at hq
      have hqm : q ∈ ((jsDelete ms info.userId).map (fun p => p.1)).foldl jsDelete
          s.socketToRoom := mem_jsDelete hq
      have hqs : q ∈ s.socketToRoom := mem_foldl_jsDelete _ _ hqm
      intro hqrid
      rcases hbindsub q hqs hqrid with h2 | h2
      · have hnd2 : keysNodup (((jsDelete ms info.userId).map (fun p => p.1)).foldl
            jsDelete s.socketToRoom) := keysNodup_foldl_jsDelete _ _ hndstbl
        exact mem_jsDelete_ne hnd2 hq h2
      · have : jsGet (((jsDelete ms info.userId).map (fun p => p.1)).foldl jsDelete
            s.socketToRoom) q.1 = none :=
          jsGet_foldl_jsDelete_of_mem _ _ hndstbl h2
        exact jsGet_ne_none_of_mem hqm this
  refine ⟨?_, ?_, hgone, ?_⟩
  · intro p hp
    obtain ⟨hpin, hpne⟩ := hsio p hp
    have hmem2 : p.1 ∈ roomRecipientsExcept s.sioRooms info.roomId sock := by
      simp only [roomRecipientsExcept, List.mem_filter]
      exact ⟨hpin, by simp [hpne]⟩
    rw [hmsgs]
    constructor <;>
      simp [recvCount, List.countP_cons, isOwnerLeftMsg, isRoomDeletedMsg, hmem2]
  · intro p hp
    rw [hstbl]
    apply jsGet_none_jsDelete
    exact jsGet_foldl_jsDelete_of_mem _ _ hndstbl
      (List.mem_map.mpr ⟨p, hp, rfl⟩)
  · intro tr htr
    exact roomGone_foldl tr _ hgone htr

/-- C3 (witness): Alice, owner of the 3-member room `R1`, leaves; Bob and
Cara each receive exactly one `room:deleted(owner_left)` notice and the room
id is dead afterwards. -/
theorem c3_witness :
    (jsGet (run traceABC).socketToRoom "A" = some ⟨"R1", "A", "Alice", true⟩ ∧
      jsGet (run traceABC).members "R1" = some [("A", demoOwner), ("B", bobMember),
        ("C", { id := "C", name := "Cara", isOwner := false, lastHeartbeat := 0 })] ∧
      jsGet (run traceABC).rooms "R1" = some { demoRoom none with memberCount := 3 }) ∧
    (recvCount (handleLeaveRoom (run traceABC) "A").2 "B" isOwnerLeftMsg = 1 ∧
      recvCount (handleLeaveRoom (run traceABC) "A").2 "C" isRoomDeletedMsg = 1 ∧
      roomGone (handleLeaveRoom (run traceABC) "A").1 "R1") := by
  have happ := c3_theorem (run traceABC) "A" ⟨"R1", "A", "Alice", true⟩
    [("A", demoOwner), ("B", bobMember),
      ("C", { id := "C", name := "Cara", isOwner := false, lastHeartbeat := 0 })]
    { demoRoom none with memberCount := 3 }
    (by decide) (by decide) (by decide) (by decide) (by decide) (by decide) (by decide)
    (by decide) (by decide) (by decide) (by decide)
  refine ⟨⟨by decide, by decide, by decide⟩, ?_, ?_, happ.2.2.1⟩
  · exact (happ.1 ("B", bobMember) (by decide)).1
  · exact (happ.1 ("C", { id := "C", name := "Cara", isOwner := false, lastHeartbeat := 0 })
      (by decide)).2

theorem registryInv_delete {s : ServerState} (h : registryInv s) (rid2 : String)
    (skip : Bool) : registryInv (deleteRoomState s rid2 skip).1 := by
  obtain ⟨hndR, hndM, hdom, hcnt⟩ := h
  have e1 : (deleteRoomState s rid2 skip).1.rooms = jsDelete s.rooms rid2 := rfl
  have e2 : (deleteRoomState s rid2 skip).1.members = jsDelete s.members rid2 := rfl
  refine ⟨?_, ?_, ?_, ?_⟩
  · rw [e1]
    exact keysNodup_jsDelete rid2 hndR
  · rw [e2]
    exact keysNodup_jsDelete rid2 hndM
  · intro rid3
    rw [e1, e2]
    by_cases he : rid2 = rid3
    · subst he
      rw [jsGet_jsDelete_self rid2 hndR, jsGet_jsDelete_self rid2 hndM]
      exact Iff.rfl
    · rw [jsGet_jsDelete_ne s.rooms he, jsGet_jsDelete_ne s.members he]
      exact hdom rid3
  · intro rid3 room ms hr hms
    rw [e1] at hr
    rw [e2] at hms
    by_cases he : rid2 = rid3
    · subst he
      rw [jsGet_jsDelete_self rid2 hndR] at hr
      cases hr
    · rw [jsGet_jsDelete_ne s.rooms he] at hr
      rw [jsGet_jsDelete_ne s.members he] at hms
      exact hcnt rid3 room ms hr hms

theorem registryInv_sweep (now : Nat) :
    ∀ (l : List (String × Room)) (p : ServerState × List OutMsg), registryInv p.1 →
      registryInv (l.foldl (sweepOne now) p).1 := by
  intro l
  induction l with
  | nil => intro p h; simpa using h
  | cons q rest ih =>
    intro p h
    simp only [List.foldl_cons]
    apply ih
    by_cases hc : 300000 < now - q.2.lastOwnerHeartbeat
    · simpa [sweepOne, hc] using registryInv_delete h q.1 false
    · simpa [sweepOne, hc] using h

theorem registryInv_leave {s : ServerState} (sock : String) (h : registryInv s) :
    registryInv (handleLeaveRoom s sock).1 := by
  obtain ⟨hndR, hndM, hdom, hcnt⟩ := h
  cases hb : jsGet s.socketToRoom sock with
  | none =>
    have hst : (handleLeaveRoom s sock).1.rooms = s.rooms ∧
        (handleLeaveRoom s sock).1.members = s.members := by
      simp [handleLeaveRoom, hb]
    exact ⟨hst.1 ▸ hndR, hst.2 ▸ hndM, fun rid => hst.1 ▸ hst.2 ▸ hdom rid,
      fun rid room ms hr hms => hcnt rid room ms (hst.1 ▸ hr) (hst.2 ▸ hms)⟩
  | some info =>
    cases hm : jsGet s.members info.roomId with
    | none =>
      have hst : (handleLeaveRoom s sock).1.rooms = s.rooms ∧
          (handleLeaveRoom s sock).1.members = s.members := by
        simp [handleLeaveRoom, hb, hm]
      exact ⟨hst.1 ▸ hndR, hst.2 ▸ hndM, fun rid => hst.1 ▸ hst.2 ▸ hdom rid,
        fun rid room ms hr hms => hcnt rid room ms (hst.1 ▸ hr) (hst.2 ▸ hms)⟩
    | some roomMembers =>
      have hrsome : ∃ room, jsGet s.rooms info.roomId = some room := by
        have := (hdom info.roomId).mpr (by rw [hm]; rfl)
        cases hrr : jsGet s.rooms info.roomId with
        | none => rw [hrr] at this; cases this
        | some room => exact ⟨room, rfl⟩
      obtain ⟨room, hroom⟩ := hrsome
      cases ho : info.isOwner with
      | true =>
        have e1 : (handleLeaveRoom s sock).1.rooms =
            jsDelete (jsSet s.rooms info.roomId
              { room with memberCount := (jsDelete roomMembers info.userId).length })
              info.roomId := by
          simp [handleLeaveRoom, hb, hm, hroom, ho, deleteRoomState]
        have e2 : (handleLeaveRoom s sock).1.members =
            jsDelete (jsSet s.members info.roomId (jsDelete roomMembers info.userId))
              info.roomId := by
          simp [handleLeaveRoom, hb, hm, hroom, ho, deleteRoomState]
        have hndR2 := keysNodup_jsSet info.roomId
          { room with memberCount := (jsDelete roomMembers info.userId).length } hndR
        have hndM2 := keysNodup_jsSet info.roomId (jsDelete roomMembers info.userId) hndM
        refine ⟨?_, ?_, ?_, ?_⟩
        · rw [e1]
          exact keysNodup_jsDelete _ hndR2
        · rw [e2]
          exact keysNodup_jsDelete _ hndM2
        · intro rid3
          rw [e1, e2]
          by_cases he : info.roomId = rid3
          · subst he
            rw [jsGet_jsDelete_self _ hndR2, jsGet_jsDelete_self _ hndM2]
            exact Iff.rfl
          · rw [jsGet_jsDelete_ne _ he, jsGet_jsDelete_ne _ he, jsGet_jsSet, jsGet_jsSet]
            simp only [if_neg he]
            exact hdom rid3
        · intro rid3 room3 ms3 hr hms
          rw [e1] at hr
          rw [e2] at hms
          by_cases he : info.roomId = rid3
          · subst he
            rw [jsGet_jsDelete_self _ hndR2] at hr
            cases hr
          · rw [jsGet_jsDelete_ne _ he, jsGet_jsSet] at hr
            rw [jsGet_jsDelete_ne _ he, jsGet_jsSet] at hms
            rw [if_neg he] at hr
            rw [if_neg he] at hms
            exact hcnt rid3 room3 ms3 hr hms
      | false =>
        have e1 : (handleLeaveRoom s sock).1.rooms =
            jsSet s.rooms info.roomId
              { room with memberCount := (jsDelete roomMembers info.userId).length } := by
          simp [handleLeaveRoom, hb, hm, hroom, ho]
        have e2 : (handleLeaveRoom s sock).1.members =
            jsSet s.members info.roomId (jsDelete roomMembers info.userId) := by
          simp [handleLeaveRoom, hb, hm, hroom, ho]
        refine ⟨?_, ?_, ?_, ?_⟩
        · rw [e1]
          exact keysNodup_jsSet _ _ hndR
        · rw [e2]
          exact keysNodup_jsSet _ _ hndM
        · intro rid3
          rw [e1, e2, jsGet_jsSet, jsGet_jsSet]
          by_cases he : info.roomId = rid3
          · simp [he]
          · simp only [if_neg he]
            exact hdom rid3
        · intro rid3 room3 ms3 hr hms
          rw [e1, jsGet_jsSet] at hr
          rw [e2, jsGet_jsSet] at hms
          by_cases he : info.roomId = rid3
          · rw [if_pos he] at hr hms
            cases hr
            cases hms
            rfl
          · rw [if_neg he] at hr hms
            exact hcnt rid3 room3 ms3 hr hms

theorem jsSet_jsSet {α : Type} (m : List (String × α)) (k : String) (v1 v2 : α) :
    jsSet (jsSet m k v1) k v2 = jsSet m k v2 := by
  induction m with
  | nil => simp [jsSet]
  | cons q rest ih =>
    obtain ⟨k1, v0⟩ := q
    by_cases h1 : k1 = k
    · simp [jsSet, h1]
    · simp [jsSet, h1, ih]

theorem jsSet_get_self {α : Type} {m : List (String × α)} {k : String} {v : α}
    (h : jsGet m k = some v) : jsSet m k v = m := by
  induction m with
  | nil => simp [jsGet] at h
  | cons q rest ih =>
    obtain ⟨k1, v0⟩ := q
    by_cases h1 : k1 = k
    · subst h1
      simp [jsGet] at h
      simp [jsSet, h]
    · simp [jsGet, h1] at h
      simp [jsSet, h1, ih h]

theorem registryInv_eq (s s2 : ServerState) (h : registryInv s)
    (hrooms : s2.rooms = s.rooms) (hmembers : s2.members = s.members) : registryInv s2 := by
  obtain ⟨hndR, hndM, hdom, hcnt⟩ := h
  rw [registryInv, hrooms, hmembers]
  exact ⟨hndR, hndM, hdom, hcnt⟩

theorem registryInv_setBoth (s s2 : ServerState) (rid : String) (room2 : Room)
    (ms2 : List (String × Member)) (h : registryInv s)
    (hrooms : s2.rooms = jsSet s.rooms rid room2)
    (hmembers : s2.members = jsSet s.members rid ms2)
    (hmc : room2.memberCount = ms2.length) : registryInv s2 := by
  obtain ⟨hndR, hndM, hdom, hcnt⟩ := h
  rw [registryInv, hrooms, hmembers]
  refine ⟨keysNodup_jsSet _ _ hndR, keysNodup_jsSet _ _ hndM, ?_, ?_⟩
  · intro rid3
    rw [jsGet_jsSet, jsGet_jsSet]
    by_cases he : rid = rid3
    · simp [he]
    · simp only [if_neg he]
      exact hdom rid3
  · intro rid3 room3 ms3 hr hms
    rw [jsGet_jsSet] at hr
    rw [jsGet_jsSet] at hms
    by_cases he : rid = rid3
    · rw [if_pos he] at hr hms
      cases hr
      cases hms
      exact hmc
    · rw [if_neg he] at hr hms
      exact hcnt rid3 room3 ms3 hr hms

theorem registryInv_step (s : ServerState) (e : Event) (h : registryInv s) :
    registryInv (stepFn s e).1 := by
  obtain ⟨hndR, hndM, hdom, hcnt⟩ := h
  have h4 : registryInv s := ⟨hndR, hndM, hdom, hcnt⟩
  cases e with
  | roomCreate sock d newRoomId tok now =>
    exact registryInv_setBoth s _ newRoomId _ _ h4 rfl rfl rfl
  | roomJoin sock d now =>
    cases hr : jsGet s.rooms d.roomId with
    | none =>
      exact registryInv_eq s _ h4 (by simp [stepFn, handleRoomJoin, hr])
        (by simp [stepFn, handleRoomJoin, hr])
    | some room0 =>
      cases hpw : passwordRejects0 room0.password d.password with
      | true =>
        exact registryInv_eq s _ h4 (by simp [stepFn, handleRoomJoin, hr, hpw])
          (by simp [stepFn, handleRoomJoin, hr, hpw])
      | false =>
        cases hm : jsGet s.members d.roomId with
        | none =>
          have h1 : (jsGet s.members d.roomId).isSome = true :=
            (hdom d.roomId).mp (by rw [hr]; rfl)
          rw [hm] at h1
          cases h1
        | some roomMembers =>
          cases hrec : reclaims0 d.ownerToken room0.ownerToken with
          | true =>
            let mem : Member := { id := sock, name := d.userName, isOwner := true, lastHeartbeat := now }
            refine registryInv_setBoth s _ d.roomId { room0 with ownerId := sock, lastOwnerHeartbeat := now, memberCount := (jsSet roomMembers sock mem).length } (jsSet roomMembers sock mem) h4 ?_ ?_ rfl
            · simp [stepFn, handleRoomJoin, hr, hpw, hrec, hm, jsSet_jsSet, mem]
            · simp [stepFn, handleRoomJoin, hr, hpw, hrec, hm, mem]
          | false =>
            let mem : Member := { id := sock, name := d.userName, isOwner := false, lastHeartbeat := now }
            refine registryInv_setBoth s _ d.roomId { room0 with memberCount := (jsSet roomMembers sock mem).length } (jsSet roomMembers sock mem) h4 ?_ ?_ rfl
            · simp [stepFn, handleRoomJoin, hr, hpw, hrec, hm, mem]
            · simp [stepFn, handleRoomJoin, hr, hpw, hrec, hm, mem]
  | roomLeave sock => exact registryInv_leave sock h4
  | roomList sock => exact registryInv_eq s _ h4 rfl rfl
  | playUpdate sock st =>
    cases hb : jsGet s.socketToRoom sock with
    | none =>
      exact registryInv_eq s _ h4 (by simp [stepFn, handlePlayUpdate, hb])
        (by simp [stepFn, handlePlayUpdate, hb])
    | some info =>
      cases hroom : jsGet s.rooms info.roomId with
      | none =>
        exact registryInv_eq s _ h4 (by simp [stepFn, handlePlayUpdate, hb, hroom])
          (by simp [stepFn, handlePlayUpdate, hb, hroom])
      | some room =>
        have hmsome : (jsGet s.members info.roomId).isSome = true :=
          (hdom info.roomId).mp (by rw [hroom]; rfl)
        cases hm : jsGet s.members info.roomId with
        | none => rw [hm] at hmsome; cases hmsome
        | some ms =>
          refine registryInv_setBoth s _ info.roomId { room with currentState := some (.play st) } ms h4 ?_ ?_ ?_
          · simp [stepFn, handlePlayUpdate, hb, hroom]
          · rw [show (stepFn s (.playUpdate sock st)).1.members = s.members by
              simp [stepFn, handlePlayUpdate, hb, hroom]]
            exact (jsSet_get_self hm).symm
          · exact hcnt info.roomId room ms hroom hm
  | playSeek sock t =>
    refine registryInv_eq s _ h4 ?_ ?_ <;>
      cases hb : jsGet s.socketToRoom sock <;> simp [stepFn, handlePlaySeek, hb]
  | playPlay sock =>
    refine registryInv_eq s _ h4 ?_ ?_ <;>
      cases hb : jsGet s.socketToRoom sock <;> simp [stepFn, handlePlayPlay, hb]
  | playPause sock =>
    refine registryInv_eq s _ h4 ?_ ?_ <;>
      cases hb : jsGet s.socketToRoom sock <;> simp [stepFn, handlePlayPause, hb]
  | playChange sock st =>
    cases hb : jsGet s.socketToRoom sock with
    | none =>
      exact registryInv_eq s _ h4 (by simp [stepFn, handlePlayChange, hb])
        (by simp [stepFn, handlePlayChange, hb])
    | some info =>
      cases ho : info.isOwner with
      | false =>
        exact registryInv_eq s _ h4 (by simp [stepFn, handlePlayChange, hb, ho])
          (by simp [stepFn, handlePlayChange, hb, ho])
      | true =>
        cases hroom : jsGet s.rooms info.roomId with
        | none =>
          exact registryInv_eq s _ h4 (by simp [stepFn, handlePlayChange, hb, ho, hroom])
            (by simp [stepFn, handlePlayChange, hb, ho, hroom])
        | some room =>
          have hmsome : (jsGet s.members info.roomId).isSome = true :=
            (hdom info.roomId).mp (by rw [hroom]; rfl)
          cases hm : jsGet s.members info.roomId with
          | none => rw [hm] at hmsome; cases hmsome
          | some ms =>
            refine registryInv_setBoth s _ info.roomId { room with currentState := some (.play st) } ms h4 ?_ ?_ ?_
            · simp [stepFn, handlePlayChange, hb, ho, hroom]
            · rw [show (stepFn s (.playChange sock st)).1.members = s.members by
                simp [stepFn, handlePlayChange, hb, ho, hroom]]
              exact (jsSet_get_self hm).symm
            · exact hcnt info.roomId room ms hroom hm
  | liveChange sock st =>
    cases hb : jsGet s.socketToRoom sock with
    | none =>
      exact registryInv_eq s _ h4 (by simp [stepFn, handleLiveChange, hb])
        (by simp [stepFn, handleLiveChange, hb])
    | some info =>
      cases ho : info.isOwner with
      | false =>
        exact registryInv_eq s _ h4 (by simp [stepFn, handleLiveChange, hb, ho])
          (by simp [stepFn, handleLiveChange, hb, ho])
      | true =>
        cases hroom : jsGet s.rooms info.roomId with
        | none =>
          exact registryInv_eq s _ h4 (by simp [stepFn, handleLiveChange, hb, ho, hroom])
            (by simp [stepFn, handleLiveChange, hb, ho, hroom])
        | some room =>
          have hmsome : (jsGet s.members info.roomId).isSome = true :=
            (hdom info.roomId).mp (by rw [hroom]; rfl)
          cases hm : jsGet s.members info.roomId with
          | none => rw [hm] at hmsome; cases hmsome
          | some ms =>
            refine registryInv_setBoth s _ info.roomId { room with currentState := some (.live st) } ms h4 ?_ ?_ ?_
            · simp [stepFn, handleLiveChange, hb, ho, hroom]
            · rw [show (stepFn s (.liveChange sock st)).1.members = s.members by
                simp [stepFn, handleLiveChange, hb, ho, hroom]]
              exact (jsSet_get_self hm).symm
            · exact hcnt info.roomId room ms hroom hm
  | chatMessage sock content kind mid now =>
    refine registryInv_eq s _ h4 ?_ ?_ <;>
      cases hb : jsGet s.socketToRoom sock <;> simp [stepFn, handleChatMessage, hb]
  | voiceOffer sock target payload =>
    refine registryInv_eq s _ h4 ?_ ?_ <;>
      cases hb : jsGet s.socketToRoom sock <;> simp [stepFn, handleVoiceOffer, hb]
  | voiceAnswer sock target payload =>
    refine registryInv_eq s _ h4 ?_ ?_ <;>
      cases hb : jsGet s.socketToRoom sock <;> simp [stepFn, handleVoiceAnswer, hb]
  | voiceIce sock target payload =>
    refine registryInv_eq s _ h4 ?_ ?_ <;>
      cases hb : jsGet s.socketToRoom sock <;> simp [stepFn, handleVoiceIce, hb]
  | heartbeat sock now =>
    cases hb : jsGet s.socketToRoom sock with
    | none =>
      exact registryInv_eq s _ h4 (by simp [stepFn, handleHeartbeat, hb])
        (by simp [stepFn, handleHeartbeat, hb])
    | some info =>
      cases hm : jsGet s.members info.roomId with
      | none =>
        cases ho : info.isOwner with
        | false =>
          exact registryInv_eq s _ h4 (by simp [stepFn, handleHeartbeat, hb, hm, ho])
            (by simp [stepFn, handleHeartbeat, hb, hm, ho])
        | true =>
          cases hroom : jsGet s.rooms info.roomId with
          | none =>
            exact registryInv_eq s _ h4
              (by simp [stepFn, handleHeartbeat, hb, hm, ho, hroom])
              (by simp [stepFn, handleHeartbeat, hb, hm, ho, hroom])
          | some room =>
            have hmsome : (jsGet s.members info.roomId).isSome = true :=
              (hdom info.roomId).mp (by rw [hroom]; rfl)
            rw [hm] at hmsome
            cases hmsome
      | some roomMembers =>
        have hrsome : (jsGet s.rooms info.roomId).isSome = true :=
          (hdom info.roomId).mpr (by rw [hm]; rfl)
        cases hroom : jsGet s.rooms info.roomId with
        | none => rw [hroom] at hrsome; cases hrsome
        | some room =>
          cases hmem : jsGet roomMembers info.userId with
          | none =>
            cases ho : info.isOwner with
            | false =>
              exact registryInv_eq s _ h4
                (by simp [stepFn, handleHeartbeat, hb, hm, hmem, ho])
                (by simp [stepFn, handleHeartbeat, hb, hm, hmem, ho])
            | true =>
              refine registryInv_setBoth s _ info.roomId { room with lastOwnerHeartbeat := now } roomMembers h4 ?_ ?_ ?_
              · simp [stepFn, handleHeartbeat, hb, hm, hmem, ho, hroom]
              · rw [show (stepFn s (.heartbeat sock now)).1.members = s.members by
                  simp [stepFn, handleHeartbeat, hb, hm, hmem, ho, hroom]]
                exact (jsSet_get_self hm).symm
              · exact hcnt info.roomId room roomMembers hroom hm
          | some member =>
            have hlen : (jsSet roomMembers info.userId
                { member with lastHeartbeat := now }).length = roomMembers.length :=
              length_jsSet_mem _ hmem
            cases ho : info.isOwner with
            | false =>
              refine registryInv_setBoth s _ info.roomId room (jsSet roomMembers info.userId { member with lastHeartbeat := now }) h4 ?_ ?_ ?_
              · rw [show (stepFn s (.heartbeat sock now)).1.rooms = s.rooms by
                  simp [stepFn, handleHeartbeat, hb, hm, hmem, ho]]
                exact (jsSet_get_self hroom).symm
              · simp [stepFn, handleHeartbeat, hb, hm, hmem, ho]
              · rw [hlen]
                exact hcnt info.roomId room roomMembers hroom hm
            | true =>
              refine registryInv_setBoth s _ info.roomId { room with lastOwnerHeartbeat := now } (jsSet roomMembers info.userId { member with lastHeartbeat := now }) h4 ?_ ?_ ?_
              · simp [stepFn, handleHeartbeat, hb, hm, hmem, ho, hroom]
              · simp [stepFn, handleHeartbeat, hb, hm, hmem, ho, hroom]
              · rw [hlen]
                exact hcnt info.roomId room roomMembers hroom hm
  | disconnect sock =>
    exact registryInv_eq _ _ (registryInv_leave sock h4) rfl rfl
  | timerFire rid2 =>
    cases hm : jsGet s.members rid2 with
    | none =>
      exact registryInv_eq s _ h4 (by simp [stepFn, handleTimerFire, hm])
        (by simp [stepFn, handleTimerFire, hm])
    | some l =>
      by_cases hlen : l.length = 0
      · exact registryInv_eq _ _ (registryInv_delete h4 rid2 false)
          (by simp [stepFn, handleTimerFire, hm, hlen])
          (by simp [stepFn, handleTimerFire, hm, hlen])
      · exact registryInv_eq s _ h4 (by simp [stepFn, handleTimerFire, hm, hlen])
          (by simp [stepFn, handleTimerFire, hm, hlen])
  | cleanupSweep now =>
    exact registryInv_sweep now s.rooms (s, []) h4

theorem registryInv_reachable (s : ServerState) (h : Reachable s) : registryInv s := by
  induction h with
  | init =>
    refine ⟨?_, ?_, ?_, ?_⟩
    · simp [initState, keysNodup]
    · simp [initState, keysNodup]
    · intro rid
      simp [initState, jsGet]
    · intro rid room ms hr _
      simp [initState, jsGet] at hr
  | step s2 e _ ih => exact registryInv_step s2 e ih

/-- C9: in every reachable state the rooms map and the members map have the
same domain, and every room's `memberCount` equals the size of its member
map — every membership mutation recomputes the count from the map before
returning. -/
theorem c9_theorem (s : ServerState) (h : Reachable s) :
    (∀ rid : String, (jsGet s.rooms rid).isSome ↔ (jsGet s.members rid).isSome) ∧
    (∀ (rid : String) (room : Room) (ms : List (String × Member)),
      jsGet s.rooms rid = some room → jsGet s.members rid = some ms →
      room.memberCount = ms.length) := by
  obtain ⟨_, _, hdom, hcnt⟩ := registryInv_reachable s h
  exact ⟨hdom, hcnt⟩

/-- C9 (witness): the invariant evaluated on the reachable three-member room
state: `memberCount = 3` equals the member-map size. -/
theorem c9_witness :
    Reachable (run traceABC) ∧
    (jsGet (run traceABC).rooms "R1").map (fun r => r.memberCount) = some 3 ∧
    (jsGet (run traceABC).members "R1").map (fun ms => ms.length) = some 3 ∧
    ((jsGet (run traceABC).rooms "R1").isSome ↔ (jsGet (run traceABC).members "R1").isSome) :=
  ⟨Reachable_run traceABC, by decide, by decide,
   (c9_theorem (run traceABC) (Reachable_run traceABC)).1 "R1"⟩

theorem ownersInv_eqM {s s2 : ServerState} (h : ownersInv s)
    (hm : s2.members = s.members) : ownersInv s2 := by
  intro p hp
  rw [hm] at hp
  exact h p hp

theorem ownersInv_subset {s s2 : ServerState} (h : ownersInv s)
    (hsub : ∀ p ∈ s2.members, p ∈ s.members) : ownersInv s2 :=
  fun p hp => h p (hsub p hp)

theorem ownersInv_setValue {s s2 : ServerState} (rid : String)
    (ms2 : List (String × Member)) (h : ownersInv s)
    (hmembers : s2.members = jsSet s.members rid ms2)
    (hnew : keysNodup ms2 ∧ ownersCount ms2 ≤ 1) : ownersInv s2 := by
  intro p hp
  rw [hmembers] at hp
  rcases mem_jsSet hp with h2 | h2
  · rw [h2]
    exact hnew
  · exact h p h2

theorem ownersInv_step (s : ServerState) (e : Event) (h : ownersInv s)
    (hok : okEvent s e) : ownersInv (stepFn s e).1 := by
  cases e with
  | roomCreate sock d newRoomId tok now =>
    refine ownersInv_setValue newRoomId
      [(sock, { id := sock, name := d.userName, isOwner := true, lastHeartbeat := now })]
      h rfl ⟨?_, ?_⟩
    · simp [keysNodup]
    · simp [ownersCount, List.countP_cons]
  | roomJoin sock d now =>
    cases hr : jsGet s.rooms d.roomId with
    | none => exact ownersInv_eqM h (by simp [stepFn, handleRoomJoin, hr])
    | some room0 =>
      cases hpw : passwordRejects0 room0.password d.password with
      | true => exact ownersInv_eqM h (by simp [stepFn, handleRoomJoin, hr, hpw])
      | false =>
        cases hm : jsGet s.members d.roomId with
        | none => exact ownersInv_eqM h (by simp [stepFn, handleRoomJoin, hr, hpw, hm])
        | some roomMembers =>
          obtain ⟨hnd0, hcnt0⟩ := h (d.roomId, roomMembers) (jsGet_mem hm)
          cases hrec : reclaims0 d.ownerToken room0.ownerToken with
          | true =>
            have hall : ∀ p ∈ roomMembers, (p : String × Member).2.isOwner = true →
                p.1 = sock := hok room0 hr hrec roomMembers hm
            refine ownersInv_setValue d.roomId
              (jsSet roomMembers sock { id := sock, name := d.userName, isOwner := true, lastHeartbeat := now })
              h (by simp [stepFn, handleRoomJoin, hr, hpw, hrec, hm]) ⟨?_, ?_⟩
            · exact keysNodup_jsSet _ _ hnd0
            · exact ownersCount_jsSet_owner_of roomMembers sock hnd0 hall
          | false =>
            refine ownersInv_setValue d.roomId
              (jsSet roomMembers sock { id := sock, name := d.userName, isOwner := false, lastHeartbeat := now })
              h (by simp [stepFn, handleRoomJoin, hr, hpw, hrec, hm]) ⟨?_, ?_⟩
            · exact keysNodup_jsSet _ _ hnd0
            · exact Nat.le_trans (ownersCount_jsSet_notOwner roomMembers sock rfl) hcnt0
  | roomLeave sock =>
    cases hb : jsGet s.socketToRoom sock with
    | none => exact ownersInv_eqM h (by simp [stepFn, handleLeaveRoom, hb])
    | some info =>
      cases hm : jsGet s.members info.roomId with
      | none => exact ownersInv_eqM h (by simp [stepFn, handleLeaveRoom, hb, hm])
      | some roomMembers =>
        obtain ⟨hnd0, hcnt0⟩ := h (info.roomId, roomMembers) (jsGet_mem hm)
        have hnew : keysNodup (jsDelete roomMembers info.userId) ∧
            ownersCount (jsDelete roomMembers info.userId) ≤ 1 :=
          ⟨keysNodup_jsDelete _ hnd0,
           Nat.le_trans (ownersCount_jsDelete_le roomMembers info.userId) hcnt0⟩
        cases ho : info.isOwner with
        | true =>
          intro p hp
          have heq : (stepFn s (.roomLeave sock)).1.members =
              jsDelete (jsSet s.members info.roomId (jsDelete roomMembers info.userId))
                info.roomId := by
            cases hroom : jsGet s.rooms info.roomId <;>
              simp [stepFn, handleLeaveRoom, hb, hm, ho, hroom, deleteRoomState]
          rw [heq] at hp
          rcases mem_jsSet (mem_jsDelete hp) with h2 | h2
          · rw [h2]
            exact hnew
          · exact h p h2
        | false =>
          refine ownersInv_setValue info.roomId (jsDelete roomMembers info.userId) h ?_ hnew
          cases hroom : jsGet s.rooms info.roomId <;>
            simp [stepFn, handleLeaveRoom, hb, hm, ho, hroom]
  | roomList sock => exact ownersInv_eqM h rfl
  | playUpdate sock st =>
    refine ownersInv_eqM h ?_
    cases hb : jsGet s.socketToRoom sock with
    | none => simp [stepFn, handlePlayUpdate, hb]
    | some info =>
      cases hroom : jsGet s.rooms info.roomId <;>
        simp [stepFn, handlePlayUpdate, hb, hroom]
  | playSeek sock t =>
    refine ownersInv_eqM h ?_
    cases hb : jsGet s.socketToRoom sock <;> simp [stepFn, handlePlaySeek, hb]
  | playPlay sock =>
    refine ownersInv_eqM h ?_
    cases hb : jsGet s.socketToRoom sock <;> simp [stepFn, handlePlayPlay, hb]
  | playPause sock =>
    refine ownersInv_eqM h ?_
    cases hb : jsGet s.socketToRoom sock <;> simp [stepFn, handlePlayPause, hb]
  | playChange sock st =>
    refine ownersInv_eqM h ?_
    cases hb : jsGet s.socketToRoom sock with
    | none => simp [stepFn, handlePlayChange, hb]
    | some info =>
      cases ho : info.isOwner with
      | false => simp [stepFn, handlePlayChange, hb, ho]
      | true =>
        cases hroom : jsGet s.rooms info.roomId <;>
          simp [stepFn, handlePlayChange, hb, ho, hroom]
  | liveChange sock st =>
    refine ownersInv_eqM h ?_
    cases hb : jsGet s.socketToRoom sock with
    | none => simp [stepFn, handleLiveChange, hb]
    | some info =>
      cases ho : info.isOwner with
      | false => simp [stepFn, handleLiveChange, hb, ho]
      | true =>
        cases hroom : jsGet s.rooms info.roomId <;>
          simp [stepFn, handleLiveChange, hb, ho, hroom]
  | chatMessage sock content kind mid now =>
    refine ownersInv_eqM h ?_
    cases hb : jsGet s.socketToRoom sock <;> simp [stepFn, handleChatMessage, hb]
  | voiceOffer sock target payload =>
    refine ownersInv_eqM h ?_
    cases hb : jsGet s.socketToRoom sock <;> simp [stepFn, handleVoiceOffer, hb]
  | voiceAnswer sock target payload =>
    refine ownersInv_eqM h ?_
    cases hb : jsGet s.socketToRoom sock <;> simp [stepFn, handleVoiceAnswer, hb]
  | voiceIce sock target payload =>
    refine ownersInv_eqM h ?_
    cases hb : jsGet s.socketToRoom sock <;> simp [stepFn, handleVoiceIce, hb]
  | heartbeat sock now =>
    cases hb : jsGet s.socketToRoom sock with
    | none => exact ownersInv_eqM h (by simp [stepFn, handleHeartbeat, hb])
    | some info =>
      cases hm : jsGet s.members info.roomId with
      | none => exact ownersInv_eqM h (by simp [stepFn, handleHeartbeat, hb, hm])
      | some roomMembers =>
        cases hmem : jsGet roomMembers info.userId with
        | none => exact ownersInv_eqM h (by simp [stepFn, handleHeartbeat, hb, hm, hmem])
        | some member =>
          obtain ⟨hnd0, hcnt0⟩ := h (info.roomId, roomMembers) (jsGet_mem hm)
          refine ownersInv_setValue info.roomId
            (jsSet roomMembers info.userId { member with lastHeartbeat := now })
            h (by simp [stepFn, handleHeartbeat, hb, hm, hmem]) ⟨?_, ?_⟩
          · exact keysNodup_jsSet _ _ hnd0
          · have hsame : ownersCount (jsSet roomMembers info.userId
                { member with lastHeartbeat := now }) = ownersCount roomMembers :=
              ownersCount_jsSet_same roomMembers info.userId hmem rfl
            rw [hsame]
            exact hcnt0
  | disconnect sock =>
    cases hb : jsGet s.socketToRoom sock with
    | none => exact ownersInv_eqM h (by simp [stepFn, handleDisconnect, handleLeaveRoom, hb])
    | some info =>
      cases hm : jsGet s.members info.roomId with
      | none =>
        exact ownersInv_eqM h (by simp [stepFn, handleDisconnect, handleLeaveRoom, hb, hm])
      | some roomMembers =>
        obtain ⟨hnd0, hcnt0⟩ := h (info.roomId, roomMembers) (jsGet_mem hm)
        have hnew : keysNodup (jsDelete roomMembers info.userId) ∧
            ownersCount (jsDelete roomMembers info.userId) ≤ 1 :=
          ⟨keysNodup_jsDelete _ hnd0,
           Nat.le_trans (ownersCount_jsDelete_le roomMembers info.userId) hcnt0⟩
        cases ho : info.isOwner with
        | true =>
          intro p hp
          have heq : (stepFn s (.disconnect sock)).1.members =
              jsDelete (jsSet s.members info.roomId (jsDelete roomMembers info.userId))
                info.roomId := by
            cases hroom : jsGet s.rooms info.roomId <;>
              simp [stepFn, handleDisconnect, handleLeaveRoom, hb, hm, ho, hroom,
                deleteRoomState]
          rw [heq] at hp
          rcases mem_jsSet (mem_jsDelete hp) with h2 | h2
          · rw [h2]
            exact hnew
          · exact h p h2
        | false =>
          refine ownersInv_setValue info.roomId (jsDelete roomMembers info.userId) h ?_ hnew
          cases hroom : jsGet s.rooms info.roomId <;>
            simp [stepFn, handleDisconnect, handleLeaveRoom, hb, hm, ho, hroom]
  | timerFire rid2 =>
    cases hm : jsGet s.members rid2 with
    | none => exact ownersInv_eqM h (by simp [stepFn, handleTimerFire, hm])
    | some l =>
      by_cases hlen : l.length = 0
      · refine ownersInv_subset h ?_
        intro p hp
        have : (stepFn s (.timerFire rid2)).1.members = jsDelete s.members rid2 := by
          simp [stepFn, handleTimerFire, hm, hlen, deleteRoomState]
        rw [this] at hp
        exact mem_jsDelete hp
      · exact ownersInv_eqM h (by simp [stepFn, handleTimerFire, hm, hlen])
  | cleanupSweep now =>
    have hfold : ∀ (l : List (String × Room)) (p : ServerState × List OutMsg),
        ownersInv p.1 → ownersInv (l.foldl (sweepOne now) p).1 := by
      intro l
      induction l with
      | nil => intro p hp; simpa using hp
      | cons q rest ih =>
        intro p hp
        simp only [List.foldl_cons]
        apply ih
        by_cases hc : 300000 < now - q.2.lastOwnerHeartbeat
        · refine ownersInv_subset hp ?_
          intro p2 hp2
          have : (sweepOne now p q).1.members = jsDelete p.1.members q.1 := by
            simp [sweepOne, hc, deleteRoomState]
          rw [this] at hp2
          exact mem_jsDelete hp2
        · simpa [sweepOne, hc] using hp
    exact hfold s.rooms (s, []) h

theorem ownersInv_reachableOk (s : ServerState) (h : ReachableOk s) : ownersInv s := by
  induction h with
  | init => intro p hp; simp [initState] at hp
  | step s2 e _ hok ih => exact ownersInv_step s2 e ih hok

/-- C1 (counterexample): the claim says at most one member per room is
owner-flagged in every reachable state, even across an ownerToken reclaim
that happens while the previous owner's record is still present.  The
reachable state of `traceReclaim` (create by `A`, then `B` joins echoing the
room's token while `A` is still a member) has TWO owner-flagged members. -/
theorem c1_counterexample :
    Reachable (run traceReclaim) ∧
    ownersCount ((jsGet (run traceReclaim).members "R1").getD []) = 2 ∧
    (jsGet (run traceReclaim).members "R1").map
      (fun ms => ((jsGet ms "A").map (fun m => m.isOwner),
        (jsGet ms "B").map (fun m => m.isOwner))) = some (some true, some true) :=
  ⟨Reachable_run traceReclaim, by decide, by decide⟩

/-- C1 (amended): at most one member per room has `isOwner = true` in every
state reachable by traces in which each ownerToken reclaim happens only when
every owner-flagged record of the room already belongs to the reclaiming
socket (in particular when the previous owner's record is gone); a reclaim
performed while the previous owner's record is still present instead yields
two owner-flagged members. -/
theorem c1_theorem (s : ServerState) (h : ReachableOk s) :
    ∀ (rid : String) (ms : List (String × Member)), jsGet s.members rid = some ms →
      ownersCount ms ≤ 1 := by
  intro rid ms hm
  exact (ownersInv_reachableOk s h (rid, ms) (jsGet_mem hm)).2

/-- C1 (witness): after Alice creates `R1` and Bob joins without a token —
an ok trace — the room has exactly one owner-flagged member. -/
theorem c1_witness :
    ReachableOk (run traceAB) ∧
    jsGet (run traceAB).members "R1" = some [("A", demoOwner), ("B", bobMember)] ∧
    ownersCount [("A", demoOwner), ("B", bobMember)] ≤ 1 := by
  have h0 : ReachableOk initState := ReachableOk.init
  have h1 := ReachableOk.step initState
    (.roomCreate "A" (sampleCreate "Alice") "R1" "TOK" 0) h0 trivial
  have hok2 : okEvent (stepFn initState
      (.roomCreate "A" (sampleCreate "Alice") "R1" "TOK" 0)).1
      (.roomJoin "B" ⟨"R1", none, "Bob", none⟩ 0) := by
    intro room _ hrec
    exact absurd hrec (by simp [reclaims0, strTruthy])
  have h2 := ReachableOk.step _ (.roomJoin "B" ⟨"R1", none, "Bob", none⟩ 0) h1 hok2
  have hre : ReachableOk (run traceAB) := h2
  exact ⟨hre, by decide,
    c1_theorem (run traceAB) hre "R1" [("A", demoOwner), ("B", bobMember)] (by decide)⟩

end WatchRoom
